import Mathlib

/-!
# Verification development for the `fire9900/auth` service

A shallow embedding of the authentication core of the service
(`pkg/auth/jwt.go`, `pkg/server/auth_server.go`, `internal/models/user.go`,
`internal/usecase`, `internal/repository/user_repository.go` and the gin handlers
and middleware) together with theorems about token issuance, token validation,
login, refresh, password hashing and the user store.

Conventions of the embedding.

* A Go function returning `(a, b, error)` becomes a Lean function returning a
  tuple whose last component is `Option GoError` (`none` is the nil error).
* `time.Time` is an `Int`: nanoseconds since the Unix epoch.  `time.Now()` is the
  explicit argument `now`.
* `[]byte` is `List Nat`.
* The third party packages (`golang-jwt/jwt/v5`, `x/crypto/bcrypt`,
  `database/sql`) are not part of the repository.  Their control flow is
  modelled in the namespaces `jwt`, `bcrypt` and `sql`; the primitives they rest
  on (base64url, JSON, HMAC, the bcrypt function) are parameters.
-/

/-! ## Basic types -/

/-- Byte slices. -/
abbrev Bytes := List Nat

/-- Instants: nanoseconds since the Unix epoch. -/
abbrev Time := Int

/-- Durations in nanoseconds, as in Go. -/
abbrev Duration := Int

namespace time

def Second : Duration := 1000000000
def Minute : Duration := 60 * Second
def Hour : Duration := 60 * Minute

/-- The method `Time.Add`. -/
def Add (t : Time) (d : Duration) : Time := t + d

/-- The method `Time.Unix`: whole seconds since the epoch, rounded down. -/
def Unix (t : Time) : Int := t / 1000000000

/-- The method `Time.Before`. -/
def Before (t u : Time) : Bool := decide (t < u)

end time

/-! ## Errors -/

/-- The errors of `ParseWithClaims`, each built by `newError` around one sentinel of
package `jwt`.  For the first two `detail` is the message passed to `newError`
(followed, after a colon, by the message of the decoding error when there is
one); for `ErrTokenSignatureInvalid` `cause` is the message of the error that
`Verify` returned; for `ErrTokenInvalidClaims` the two flags record which of
`ErrTokenExpired` and `ErrTokenNotValidYet` were joined into it. -/
inductive JwtErr where
  | ErrTokenMalformed (detail : String)
  | ErrTokenUnverifiable (detail : String)
  | ErrTokenSignatureInvalid (cause : String)
  | ErrTokenInvalidClaims (expired notValidYet : Bool)
  deriving DecidableEq, Repr

/-- Go error values that occur in the service.  Values are compared by identity in
the source (`err == models.ErrorWrongPassword`); here by constructor. -/
inductive GoError where
  /-- The value `models.ErrorUserNotFound`. -/
  | ErrorUserNotFound
  /-- The value `models.ErrorWrongPassword`. -/
  | ErrorWrongPassword
  /-- The value `auth.ErrorInvalidToken`. -/
  | ErrorInvalidToken
  /-- An error produced by the jwt parser. -/
  | jwt (e : JwtErr)
  /-- The value `sql.ErrNoRows`. -/
  | ErrNoRows
  /-- Any other error of the database driver, with its message. -/
  | driver (msg : String)
  /-- An error of package bcrypt, with its message. -/
  | bcrypt (msg : String)
  /-- An error of request binding, with its message. -/
  | binding (msg : String)
  /-- The result of `fmt.Errorf(pre + "%w", inner)`. -/
  | wrapped (pre : String) (inner : GoError)
  /-- The result of `fmt.Errorf(msg)` or `errors.New(msg)` at a call site. -/
  | text (msg : String)
  deriving DecidableEq, Repr

namespace JwtErr

/-- The method `Error()`: the message of the sentinel, a colon and the rest, as
`newError` formats it; the claims errors are joined by a comma. -/
def Error : JwtErr → String
  | ErrTokenMalformed detail => "token is malformed: " ++ detail
  | ErrTokenUnverifiable detail => "token is unverifiable: " ++ detail
  | ErrTokenSignatureInvalid cause => "token signature is invalid: " ++ cause
  | ErrTokenInvalidClaims true true =>
    "token has invalid claims: token is expired, token is not valid yet"
  | ErrTokenInvalidClaims true false => "token has invalid claims: token is expired"
  | ErrTokenInvalidClaims false true => "token has invalid claims: token is not valid yet"
  | ErrTokenInvalidClaims false false => "token has invalid claims: "

end JwtErr

namespace GoError

/-- The method `Error()` of an error value. -/
def Error : GoError → String
  | ErrorUserNotFound => "Пользователь не найден"
  | ErrorWrongPassword => "Неверный пароль"
  | ErrorInvalidToken => "Неактуальный токен"
  | jwt e => e.Error
  | ErrNoRows => "sql: no rows in result set"
  | driver msg => msg
  | bcrypt msg => msg
  | binding msg => msg
  | wrapped pre inner => pre ++ inner.Error
  | text msg => msg

/-- The function `errors.Is(err, target)` for the sentinel targets used in the source:
follows the chain of wrapped errors. -/
def Is : GoError → GoError → Bool
  | wrapped pre inner, target =>
      decide (wrapped pre inner = target) || Is inner target
  | e, target => decide (e = target)

end GoError

/-! ## Package `strings` -/

namespace strings

/-- The function `strings.HasPrefix`. -/
def HasPrefix (s pre : String) : Bool := pre.toList.isPrefixOf s.toList

/-- The function `strings.TrimPrefix`: `s` without the leading `pre`, or `s` itself
when it does not start with `pre`. -/
def TrimPrefix (s pre : String) : String :=
  if HasPrefix s pre then String.mk (s.toList.drop pre.toList.length) else s

/-- The function `strings.ToLower`, on the letters `A` to `Z`; no other character
has a lower case among the letters of `bearer`, which is all the parser looks
for. -/
def ToLower (s : String) : String := s.toLower

end strings

/-! ## Package `jwt` (github.com/golang-jwt/jwt/v5), as far as the service uses it -/

namespace jwt

/-- The struct `jwt.RegisteredClaims`.  A `NumericDate` is held as whole Unix
seconds: `NewNumericDate` truncates to `TimePrecision`, which is one second. -/
structure RegisteredClaims where
  Issuer : String := ""
  Subject : String := ""
  Audience : List String := []
  ExpiresAt : Option Int := none
  NotBefore : Option Int := none
  IssuedAt : Option Int := none
  ID : String := ""
  deriving DecidableEq, Repr

/-- The function `jwt.NewNumericDate`: the instant truncated to whole seconds. -/
def NewNumericDate (t : Time) : Int := time.Unix t

/-- The instant a `NumericDate` stands for. -/
def NumericDate.Time (d : Int) : Time := d * 1000000000

/-- The header of a token: the `alg` and `typ` entries of the header map, each
`none` when absent or not a string. -/
structure Header where
  typ : Option String
  alg : Option String
  deriving DecidableEq, Repr

/-- The HMAC signing methods. -/
inductive HMAC where
  | HS256
  | HS384
  | HS512
  deriving DecidableEq, Repr

/-- The signing methods registered by the package. -/
inductive SigningMethod where
  | hmac (h : HMAC)
  /-- The RSA, RSA-PSS, ECDSA and EdDSA methods, which need a key that is not a byte slice. -/
  | asymmetric (alg : String)
  /-- The method "none". -/
  | none
  deriving DecidableEq, Repr

/-- The method `Alg()`. -/
def SigningMethod.Alg : SigningMethod → String
  | .hmac .HS256 => "HS256"
  | .hmac .HS384 => "HS384"
  | .hmac .HS512 => "HS512"
  | .asymmetric alg => alg
  | .none => "none"

/-- The function `jwt.GetSigningMethod`: lookup among the methods registered by the
package at start. -/
def GetSigningMethod (alg : String) : Option SigningMethod :=
  if alg = "HS256" then some (.hmac .HS256)
  else if alg = "HS384" then some (.hmac .HS384)
  else if alg = "HS512" then some (.hmac .HS512)
  else if alg ∈ ["RS256", "RS384", "RS512", "PS256", "PS384", "PS512",
                 "ES256", "ES384", "ES512", "EdDSA"] then some (.asymmetric alg)
  else if alg = "none" then some .none
  else Option.none

end jwt

namespace auth

/-- The struct `auth.Claims`: a user ID and the embedded registered claims. -/
structure Claims extends jwt.RegisteredClaims where
  UserID : Int := 0
  deriving DecidableEq, Repr

end auth

namespace jwt

/-- The primitives under the jwt package, for the claims type of the service. -/
structure Primitives where
  /-- Unpadded base64url encoding, `Token.EncodeSegment`. -/
  EncodeSegment : Bytes → String
  /-- Unpadded base64url decoding, `Parser.DecodeSegment`; `none` is an error. -/
  DecodeSegment : String → Option Bytes
  /-- The function `json.Marshal` on a header map. -/
  MarshalHeader : Header → Bytes
  /-- The function `json.Unmarshal` into a header map; `none` is an error. -/
  UnmarshalHeader : Bytes → Option Header
  /-- The function `json.Marshal` on a value of type `auth.Claims`. -/
  MarshalClaims : auth.Claims → Bytes
  /-- The function `json.Unmarshal` into a value of type `auth.Claims`; `none` is an error. -/
  UnmarshalClaims : Bytes → Option auth.Claims
  /-- The keyed hash `hmac.New(hash, key)` applied to a signing string. -/
  Mac : HMAC → Bytes → String → Bytes
  /-- The message of the error of `DecodeSegment` on a segment that does not decode. -/
  DecodeSegmentError : String → String
  /-- The message of the error of `json.Unmarshal` on bytes that are no header. -/
  UnmarshalHeaderError : Bytes → String
  /-- The message of the error of `json.Unmarshal` on bytes that are no claims. -/
  UnmarshalClaimsError : Bytes → String
  /-- The message of the error that the `Verify` of the asymmetric method with the given
  name returns for a key that is a byte slice: `key is of invalid type`, in later
  releases followed by the key type that the method expects. -/
  InvalidKeyTypeError : String → String

/-- What the service relies on from the primitives: decoding inverts encoding, and
an encoded segment has no dot (the base64url alphabet has none). -/
structure Primitives.Lawful (P : Primitives) : Prop where
  decode_encode : ∀ b, P.DecodeSegment (P.EncodeSegment b) = some b
  encode_no_dot : ∀ b, '.' ∉ (P.EncodeSegment b).toList
  header_roundtrip : ∀ h, P.UnmarshalHeader (P.MarshalHeader h) = some h
  claims_roundtrip : ∀ c, P.UnmarshalClaims (P.MarshalClaims c) = some c

/-- The struct `jwt.Token`. -/
structure Token where
  Raw : String := ""
  Method : Option SigningMethod := Option.none
  Header : Header := ⟨Option.none, Option.none⟩
  Claims : auth.Claims := {}
  Signature : Bytes := []
  Valid : Bool := false
  deriving DecidableEq, Repr

/-- The function `strings.Split(s, ".")` on the characters of `s`. -/
def splitDots : List Char → List (List Char)
  | [] => [[]]
  | c :: cs =>
    if c = '.' then [] :: splitDots cs
    else
      match splitDots cs with
      | [] => [[c]]
      | p :: ps => (c :: p) :: ps

/-- The function `strings.Split(s, ".")`. -/
def Split (s : String) : List String := (splitDots s.toList).map String.mk

/-- The function `strings.Join(parts, ".")` on the characters of the parts. -/
def joinDots : List (List Char) → List Char
  | [] => []
  | [p] => p
  | p :: q :: rest => p ++ '.' :: joinDots (q :: rest)

/-- The function `jwt.NewWithClaims`. -/
def NewWithClaims (method : SigningMethod) (claims : auth.Claims) : Token :=
  { Header := ⟨some "JWT", some method.Alg⟩, Claims := claims, Method := some method }

/-- The method `Token.SigningString`: the encoded header and claims joined by a dot. -/
def Token.SigningString (P : Primitives) (t : Token) : String :=
  P.EncodeSegment (P.MarshalHeader t.Header) ++ "." ++ P.EncodeSegment (P.MarshalClaims t.Claims)

/-- The method `Sign` of a signing method, for a key that is a byte slice. -/
def SigningMethod.Sign (P : Primitives) (m : SigningMethod) (signingString : String)
    (key : Bytes) : Bytes × Option GoError :=
  match m with
  | .hmac h => (P.Mac h key signingString, Option.none)
  | .asymmetric _ => ([], some (GoError.text "key is of invalid type"))
  | .none =>
    ([], some (GoError.text "token is unverifiable: 'none' signature type is not allowed"))

/-- The method `Token.SignedString` for a key that is a byte slice.  A nil method, which
`NewWithClaims` never leaves, would panic; the first branch stands for that. -/
def Token.SignedString (P : Primitives) (t : Token) (key : Bytes) : String × Option GoError :=
  let sstr := t.SigningString P
  match t.Method with
  | Option.none => ("", some (GoError.text "signing method is nil"))
  | some m =>
    match m.Sign P sstr key with
    | (_, some err) => ("", some err)
    | (sig, Option.none) => (sstr ++ "." ++ P.EncodeSegment sig, Option.none)

/-- The method `Verify` of a signing method, for a key that is a byte slice: the
message of the error, `none` for the nil error.  The HMAC methods compare the
signature with the keyed hash of the signing string; the asymmetric methods refuse
the key; the method `none` accepts only its own marker as key. -/
def SigningMethod.Verify (P : Primitives) (m : SigningMethod) (signingString : String)
    (sig : Bytes) (key : Bytes) : Option String :=
  match m with
  | .hmac h =>
    if sig = P.Mac h key signingString then Option.none else some "signature is invalid"
  | .asymmetric alg => some (P.InvalidKeyTypeError alg)
  | .none => some "token is unverifiable: 'none' signature type is not allowed"

/-- The default `Validator.Validate` on registered claims (no leeway, no required
claim, issued-at not checked, no expected audience, issuer or subject): the
expiration and the not-before instant are compared with the current time when
present. -/
def Validate (now : Time) (c : RegisteredClaims) : Option JwtErr :=
  let expired : Bool :=
    match c.ExpiresAt with
    | Option.none => false
    | some exp => !(time.Before now (NumericDate.Time exp))
  let notValidYet : Bool :=
    match c.NotBefore with
    | Option.none => false
    | some nbf => time.Before now (NumericDate.Time nbf)
  if expired || notValidYet then some (JwtErr.ErrTokenInvalidClaims expired notValidYet)
  else Option.none

/-- The method `Parser.ParseUnverified`: split into three segments, decode the header
and the claims, look up the signing method.  Every failure is a `newError` around
`ErrTokenMalformed` or `ErrTokenUnverifiable` with the message given here. -/
def ParseUnverified (P : Primitives) (tokenString : String) :
    Token × List String × Option JwtErr :=
  let parts := Split tokenString
  match parts with
  | [p0, p1, _] =>
    let token : Token := { Raw := tokenString }
    match P.DecodeSegment p0 with
    | Option.none =>
      if strings.HasPrefix (strings.ToLower tokenString) "bearer " then
        (token, parts,
          some (JwtErr.ErrTokenMalformed "tokenstring should not contain 'bearer '"))
      else
        (token, parts,
          some (JwtErr.ErrTokenMalformed
            ("could not base64 decode header: " ++ P.DecodeSegmentError p0)))
    | some headerBytes =>
      match P.UnmarshalHeader headerBytes with
      | Option.none =>
        (token, parts,
          some (JwtErr.ErrTokenMalformed
            ("could not JSON decode header: " ++ P.UnmarshalHeaderError headerBytes)))
      | some header =>
        let token := { token with Header := header }
        match P.DecodeSegment p1 with
        | Option.none =>
          (token, parts,
            some (JwtErr.ErrTokenMalformed
              ("could not base64 decode claim: " ++ P.DecodeSegmentError p1)))
        | some claimBytes =>
          match P.UnmarshalClaims claimBytes with
          | Option.none =>
            (token, parts,
              some (JwtErr.ErrTokenMalformed
                ("could not JSON decode claim: " ++ P.UnmarshalClaimsError claimBytes)))
          | some claims =>
            let token := { token with Claims := claims }
            match header.alg with
            | Option.none =>
              (token, parts,
                some (JwtErr.ErrTokenUnverifiable "signing method (alg) is unspecified"))
            | some alg =>
              match GetSigningMethod alg with
              | Option.none =>
                (token, parts,
                  some (JwtErr.ErrTokenUnverifiable "signing method (alg) is unavailable"))
              | some method => ({ token with Method := some method }, parts, Option.none)
  | _ =>
    ({}, parts, some (JwtErr.ErrTokenMalformed "token contains an invalid number of segments"))

/-- The method `Parser.ParseWithClaims` with a key function that returns the byte
slice `key`.  The flag is the parser option `skipClaimsValidation`; no valid
methods are configured.  After `ParseUnverified` has succeeded there are three
parts and a signing method, so the last branch is never taken. -/
def Parser.ParseWithClaims (P : Primitives) (skipClaimsValidation : Bool) (now : Time)
    (tokenString : String) (key : Bytes) : Token × Option JwtErr :=
  match ParseUnverified P tokenString with
  | (token, _, some err) => (token, some err)
  | (token, parts, Option.none) =>
    match parts, token.Method with
    | [p0, p1, p2], some method =>
      match P.DecodeSegment p2 with
      | Option.none =>
        (token,
          some (JwtErr.ErrTokenMalformed
            ("could not base64 decode signature: " ++ P.DecodeSegmentError p2)))
      | some sig =>
        let token := { token with Signature := sig }
        let text := p0 ++ "." ++ p1
        match method.Verify P text sig key with
        | some cause => (token, some (JwtErr.ErrTokenSignatureInvalid cause))
        | Option.none =>
          if skipClaimsValidation then ({ token with Valid := true }, Option.none)
          else
            match Validate now token.Claims.toRegisteredClaims with
            | some err => (token, some err)
            | Option.none => ({ token with Valid := true }, Option.none)
    | _, _ =>
      (token, some (JwtErr.ErrTokenMalformed "token contains an invalid number of segments"))

/-- The function `jwt.ParseWithClaims`: the default parser, which validates the
claims. -/
def ParseWithClaims (P : Primitives) (now : Time) (tokenString : String) (key : Bytes) :
    Token × Option JwtErr :=
  Parser.ParseWithClaims P false now tokenString key

/-- A compact serialisation built from a header, claims and a signature: the three
encoded segments joined by dots. -/
def Compact (P : Primitives) (header : Header) (claims : auth.Claims) (sig : Bytes) : String :=
  P.EncodeSegment (P.MarshalHeader header) ++ "." ++ P.EncodeSegment (P.MarshalClaims claims)
    ++ "." ++ P.EncodeSegment sig

end jwt

/-! ## Package `auth` (pkg/auth/jwt.go) -/

namespace auth

/-- The package variable `secretKey`. -/
def secretKey : Bytes := "q4t7w!z%C*F-JaN19RgUkXp2s5v8y/B?E".toList.map Char.toNat

/-- The function `GenerateAccessToken`. -/
def GenerateAccessToken (P : jwt.Primitives) (now : Time) (userID : Int) :
    String × Int × Option GoError :=
  let expirationTime := time.Add now (15 * time.Minute)
  let claim : Claims :=
    { UserID := userID, ExpiresAt := some (jwt.NewNumericDate expirationTime) }
  let token := jwt.NewWithClaims (.hmac .HS256) claim
  let (tokenString, err) := token.SignedString P secretKey
  (tokenString, time.Unix expirationTime, err)

/-- The function `GenerateRefreshToken`. -/
def GenerateRefreshToken (P : jwt.Primitives) (now : Time) (userID : Int) :
    String × Option GoError :=
  let expirationTime := time.Add now (7 * 24 * time.Hour)
  let claim : Claims :=
    { UserID := userID, ExpiresAt := some (jwt.NewNumericDate expirationTime) }
  let token := jwt.NewWithClaims (.hmac .HS256) claim
  token.SignedString P secretKey

/-- The function `ValidateToken`; `now` is the time at which the parser reads the
clock. -/
def ValidateToken (P : jwt.Primitives) (now : Time) (tokenString : String) :
    Option Claims × Option GoError :=
  match jwt.ParseWithClaims P now tokenString secretKey with
  | (_, some err) => (none, some (GoError.jwt err))
  | (token, none) =>
    if !token.Valid then (none, some GoError.ErrorInvalidToken)
    else (some token.Claims, none)

end auth

/-! ## Package `bcrypt` (golang.org/x/crypto/bcrypt) -/

namespace bcrypt

/-- The constant `bcrypt.DefaultCost`. -/
def DefaultCost : Nat := 10

/-- The two functions of the package that the service calls.  The salt that
`GenerateFromPassword` draws from the random source is an explicit argument. -/
structure Primitives where
  /-- The function `bcrypt.GenerateFromPassword`. -/
  GenerateFromPassword : (salt : Bytes) → (password : String) → (cost : Nat) →
    String × Option GoError
  /-- The function `bcrypt.CompareHashAndPassword`; `none` is the nil error. -/
  CompareHashAndPassword : (hashedPassword : String) → (password : String) → Option GoError

/-- The error `bcrypt.ErrPasswordTooLong`. -/
def ErrPasswordTooLong : GoError := GoError.bcrypt "bcrypt: password length exceeds 72 bytes"

/-- A string is a hash when some call of `GenerateFromPassword` returned it. -/
def IsHash (B : Primitives) (hashed : String) : Prop :=
  ∃ salt password cost, B.GenerateFromPassword salt password cost = (hashed, none)

/-- What the service relies on from the package: at the default cost a password of at
most 72 bytes is hashed; a longer one is refused with `ErrPasswordTooLong`; a hash
that was generated from a password compares equal with it; and only generated
hashes compare equal with anything. -/
structure Primitives.Lawful (B : Primitives) : Prop where
  generate_ok : ∀ salt password, password.utf8ByteSize ≤ 72 →
    (B.GenerateFromPassword salt password DefaultCost).2 = none
  generate_too_long : ∀ salt password cost, 72 < password.utf8ByteSize →
    (B.GenerateFromPassword salt password cost).2 = some ErrPasswordTooLong
  compare_generate : ∀ salt password cost hashed,
    B.GenerateFromPassword salt password cost = (hashed, none) →
    B.CompareHashAndPassword hashed password = none
  compare_is_hash : ∀ hashed password, B.CompareHashAndPassword hashed password = none →
    IsHash B hashed

end bcrypt

/-! ## Package `models` (internal/models/user.go) -/

namespace models

/-- The struct `models.User`. -/
structure User where
  ID : Int := 0
  Name : String := ""
  Email : String := ""
  Password : String := ""
  Role : String := ""
  deriving DecidableEq, Repr

/-- The method `User.HashPassword`: the user after the call, and the error.  The
argument `salt` is what `GenerateFromPassword` draws from the random source. -/
def User.HashPassword (B : bcrypt.Primitives) (salt : Bytes) (u : User) : User × Option GoError :=
  match B.GenerateFromPassword salt u.Password bcrypt.DefaultCost with
  | (_, some err) => (u, some err)
  | (hashed, none) => ({ u with Password := hashed }, none)

/-- The method `User.CheckPassword`. -/
def User.CheckPassword (B : bcrypt.Primitives) (u : User) (password : String) : Option GoError :=
  B.CompareHashAndPassword u.Password password

/-- The method `User.VerifyPassword`. -/
def User.VerifyPassword (B : bcrypt.Primitives) (u : User) (password : String) : Bool :=
  let err := B.CompareHashAndPassword u.Password password
  err.isNone

end models

/-! ## Package `sql` (database/sql): the table `users` -/

namespace sql

/-- The database behind `*sql.DB`: the rows of table `users`, and the failure (if
any) that the connection answers every statement with. -/
structure DB where
  users : List models.User := []
  fault : Option String := none
  /-- The next value of the sequence behind column `id`. -/
  nextID : Int := 1
  /-- The default of column `role`, which `INSERT` leaves unset. -/
  defaultRole : String := "user"
  /-- The failure (if any) that the driver answers `Result.RowsAffected` with. -/
  rowsFault : Option String := none
  deriving Repr

/-- The interface `sql.Result`, as far as the service reads it. -/
structure Result where
  RowsAffected : Int × Option GoError
  deriving Repr

/-- The statement `SELECT id, name, email, password, role FROM users WHERE id = $1`
run by `QueryRow` and read by `Scan`. -/
def DB.QueryRowByID (db : DB) (id : Int) : models.User × Option GoError :=
  match db.fault with
  | some msg => ({}, some (GoError.driver msg))
  | none =>
    match db.users.find? (fun u => decide (u.ID = id)) with
    | some u => (u, none)
    | none => ({}, some GoError.ErrNoRows)

/-- The statement `SELECT id, name, email, password, role FROM users WHERE email = $1`
run by `QueryRow` and read by `Scan`. -/
def DB.QueryRowByEmail (db : DB) (email : String) : models.User × Option GoError :=
  match db.fault with
  | some msg => ({}, some (GoError.driver msg))
  | none =>
    match db.users.find? (fun u => decide (u.Email = email)) with
    | some u => (u, none)
    | none => ({}, some GoError.ErrNoRows)

/-- The statement `INSERT INTO users (name, email, password) VALUES ($1, $2, $3)
RETURNING id, name, email, password` run by `QueryRow` and read by `Scan`: the
database after it, the row read and the error.  The table has a primary key on
`id` and a unique index on `email`. -/
def DB.QueryRowInsert (db : DB) (name email password : String) :
    DB × models.User × Option GoError :=
  match db.fault with
  | some msg => (db, {}, some (GoError.driver msg))
  | none =>
    if db.users.any (fun u => decide (u.Email = email) || decide (u.ID = db.nextID)) then
      ({ db with nextID := db.nextID + 1 }, {},
        some (GoError.driver "duplicate key value violates unique constraint"))
    else
      ({ db with
          users := db.users ++
            [{ ID := db.nextID, Name := name, Email := email, Password := password,
               Role := db.defaultRole }],
          nextID := db.nextID + 1 },
        { ID := db.nextID, Name := name, Email := email, Password := password }, none)

/-- The statement `UPDATE users SET name = $1, email = $2, password = $3 WHERE id = $4
RETURNING id, name, email, password` run by `QueryRow` and read by `Scan`: the
database after it, the row read and the error. -/
def DB.QueryRowUpdate (db : DB) (name email password : String) (id : Int) :
    DB × models.User × Option GoError :=
  match db.fault with
  | some msg => (db, {}, some (GoError.driver msg))
  | none =>
    match db.users.find? (fun u => decide (u.ID = id)) with
    | none => (db, {}, some GoError.ErrNoRows)
    | some old =>
      if db.users.any (fun u => decide (u.Email = email) && !decide (u.ID = id)) then
        (db, {}, some (GoError.driver "duplicate key value violates unique constraint"))
      else
        ({ db with
            users := db.users.map (fun u =>
              if u.ID = id then { u with Name := name, Email := email, Password := password }
              else u) },
          { ID := old.ID, Name := name, Email := email, Password := password }, none)

/-- The statement `DELETE FROM users WHERE id = $1` run by `Exec`: the database after
it, the result and the error. -/
def DB.ExecDelete (db : DB) (id : Int) : DB × Result × Option GoError :=
  match db.fault with
  | some msg => (db, ⟨(0, none)⟩, some (GoError.driver msg))
  | none =>
    ({ db with users := db.users.filter (fun u => !decide (u.ID = id)) },
      ⟨match db.rowsFault with
        | some msg => (0, some (GoError.driver msg))
        | none => (((db.users.filter (fun u => decide (u.ID = id))).length : Int), none)⟩,
      none)

end sql

/-! ## Package `repository` (internal/repository/user_repository.go) -/

namespace repository

/-- The struct `userRepository`. -/
structure userRepository where
  db : sql.DB
  deriving Repr

/-- The method `userRepository.GetByID`. -/
def userRepository.GetByID (r : userRepository) (id : Int) : models.User × Option GoError :=
  match r.db.QueryRowByID id with
  | (_, some err) =>
    if GoError.Is err GoError.ErrNoRows then ({}, some GoError.ErrorUserNotFound)
    else ({}, some (GoError.wrapped "ошибка при получении пользователя по ID: " err))
  | (user, none) => (user, none)

/-- The method `userRepository.GetByEmail`. -/
def userRepository.GetByEmail (r : userRepository) (email : String) :
    models.User × Option GoError :=
  match r.db.QueryRowByEmail email with
  | (_, some err) =>
    if GoError.Is err GoError.ErrNoRows then ({}, some GoError.ErrorUserNotFound)
    else ({}, some (GoError.wrapped "Ошибка получения пользователя по Email: " err))
  | (user, none) => (user, none)

/-- The method `userRepository.Create`: the repository after the call, the user and
the error. -/
def userRepository.Create (r : userRepository) (user : models.User) :
    userRepository × models.User × Option GoError :=
  match r.db.QueryRowInsert user.Name user.Email user.Password with
  | (db, _, some err) =>
    (⟨db⟩, {}, some (GoError.wrapped "ошибка при создании пользователя: " err))
  | (db, createdUser, none) => (⟨db⟩, createdUser, none)

/-- The method `userRepository.Update`: the repository after the call, the user and
the error.  The argument `salt` is for the `HashPassword` call on the row read
back. -/
def userRepository.Update (B : bcrypt.Primitives) (salt : Bytes) (r : userRepository)
    (id : Int) (user : models.User) : userRepository × models.User × Option GoError :=
  match r.db.QueryRowUpdate user.Name user.Email user.Password id with
  | (db, _, some err) =>
    if GoError.Is err GoError.ErrNoRows then (⟨db⟩, {}, some GoError.ErrorUserNotFound)
    else (⟨db⟩, {}, some (GoError.wrapped "ошибка при обновлении пользователя: " err))
  | (db, updatedUser, none) =>
    match updatedUser.HashPassword B salt with
    | (_, some err) => (⟨db⟩, {}, some err)
    | (updatedUser, none) => (⟨db⟩, updatedUser, none)

/-- The method `userRepository.Delete`: the repository after the call and the error. -/
def userRepository.Delete (r : userRepository) (id : Int) : userRepository × Option GoError :=
  match r.db.ExecDelete id with
  | (db, _, some err) =>
    (⟨db⟩, some (GoError.wrapped "ошибка при удалении пользователя: " err))
  | (db, result, none) =>
    match result.RowsAffected with
    | (_, some err) =>
      (⟨db⟩, some (GoError.wrapped "ошибка при получении количества удаленных строк: " err))
    | (rowsAffected, none) =>
      if rowsAffected = 0 then (⟨db⟩, some GoError.ErrorUserNotFound)
      else (⟨db⟩, none)

/-- The method `userRepository.CheckPassword`. -/
def userRepository.CheckPassword (B : bcrypt.Primitives) (r : userRepository) (id : Int)
    (password : String) : Bool :=
  match r.GetByID id with
  | (_, some _) => false
  | (user, none) =>
    let isValid := user.VerifyPassword B password
    isValid

end repository

/-! ## Package `usecase` (internal/usecase) -/

namespace usecase

/-- The struct `UserUseCase`. -/
structure UserUseCase where
  repo : repository.userRepository
  deriving Repr

/-- The method `UserUseCase.GetUserByID`. -/
def UserUseCase.GetUserByID (uc : UserUseCase) (id : Int) : models.User × Option GoError :=
  uc.repo.GetByID id

/-- The method `UserUseCase.GetUserByEmail`. -/
def UserUseCase.GetUserByEmail (uc : UserUseCase) (email : String) :
    models.User × Option GoError :=
  uc.repo.GetByEmail email

/-- The method `UserUseCase.Authenticate`.  The clock is read twice, at `tAccess` by
`GenerateAccessToken` and at `tRefresh` by `GenerateRefreshToken`. -/
def UserUseCase.Authenticate (P : jwt.Primitives) (B : bcrypt.Primitives)
    (tAccess tRefresh : Time) (uc : UserUseCase) (email : String) (password : String) :
    String × String × Int × Option GoError :=
  match uc.repo.GetByEmail email with
  | (_, some err) =>
    if err = GoError.ErrorUserNotFound then ("", "", 0, some GoError.ErrorWrongPassword)
    else ("", "", 0, some err)
  | (user, none) =>
    match user.CheckPassword B password with
    | some _ => ("", "", 0, some GoError.ErrorWrongPassword)
    | none =>
      match auth.GenerateAccessToken P tAccess user.ID with
      | (_, _, some err) =>
        ("", "", 0, some (GoError.wrapped "ошибка генерации access токена: " err))
      | (accessToken, expiresIn, none) =>
        match auth.GenerateRefreshToken P tRefresh user.ID with
        | (_, some err) =>
          ("", "", 0, some (GoError.wrapped "ошибка генерации refresh токена: " err))
        | (refreshToken, none) => (accessToken, refreshToken, expiresIn, none)

/-- The method `UserUseCase.CreateUser`: the use case after the call, the user and the
error. -/
def UserUseCase.CreateUser (B : bcrypt.Primitives) (salt : Bytes) (uc : UserUseCase)
    (user : models.User) : UserUseCase × models.User × Option GoError :=
  if user.Password = "" then (uc, {}, some (GoError.text "пароль не может быть пустым"))
  else
    match user.HashPassword B salt with
    | (_, some err) => (uc, {}, some err)
    | (user, none) =>
      let user := { user with Role := "user" }
      match uc.repo.Create user with
      | (repo, created, err) => (⟨repo⟩, created, err)

/-- The method `UserUseCase.UpdateUser`: the use case after the call, the user and the
error. -/
def UserUseCase.UpdateUser (B : bcrypt.Primitives) (salt : Bytes) (uc : UserUseCase)
    (id : Int) (user : models.User) : UserUseCase × models.User × Option GoError :=
  match uc.repo.Update B salt id user with
  | (repo, updated, err) => (⟨repo⟩, updated, err)

/-- The method `UserUseCase.DeleteUser`: the use case after the call and the error. -/
def UserUseCase.DeleteUser (uc : UserUseCase) (id : Int) : UserUseCase × Option GoError :=
  match uc.repo.Delete id with
  | (repo, err) => (⟨repo⟩, err)

/-- The method `UserUseCase.CheckPassword`. -/
def UserUseCase.CheckPassword (B : bcrypt.Primitives) (uc : UserUseCase) (id : Int)
    (password : String) : Bool :=
  uc.repo.CheckPassword B id password

end usecase

/-! ## Package `handlers` (internal/transport/gin/handlers) -/

namespace http

def StatusOK : Nat := 200
def StatusBadRequest : Nat := 400
def StatusUnauthorized : Nat := 401
def StatusInternalServerError : Nat := 500
def StatusCreated : Nat := 201
def StatusNotFound : Nat := 404

end http

namespace handlers

/-- The struct `LoginRequest`. -/
structure LoginRequest where
  Email : String := ""
  Password : String := ""
  deriving DecidableEq, Repr

/-- The struct `RefreshRequest`. -/
structure RefreshRequest where
  RefreshToken : String := ""
  deriving DecidableEq, Repr

/-- The struct `TokenResponse`. -/
structure TokenResponse where
  AccessToken : String := ""
  RefreshToken : String := ""
  ExpiresIn : Int := 0
  UserID : Int := 0
  Role : String := ""
  deriving DecidableEq, Repr

/-- The value written by `c.JSON`: a `gin.H` map (its entries in key order) or a
`TokenResponse`. -/
inductive Body where
  | H (entries : List (String × String))
  | Tokens (r : TokenResponse)
  | User (u : models.User)
  deriving DecidableEq, Repr

/-- What a handler writes: the status code and the JSON body. -/
structure Response where
  status : Nat
  body : Body
  deriving DecidableEq, Repr

/-- The struct `UserHandler`. -/
structure UserHandler where
  userUseCase : usecase.UserUseCase
  deriving Repr

/-- The method `UserHandler.Login`.  The pair `(req, bindErr)` is what
`c.ShouldBindJSON(&req)` leaves: the bound request and its error. -/
def UserHandler.Login (P : jwt.Primitives) (B : bcrypt.Primitives) (tAccess tRefresh : Time)
    (h : UserHandler) (req : LoginRequest) (bindErr : Option GoError) : Response :=
  match bindErr with
  | some err => ⟨http.StatusBadRequest, .H [("error", err.Error)]⟩
  | none =>
    match h.userUseCase.GetUserByEmail req.Email with
    | (_, some err) => ⟨http.StatusInternalServerError, .H [("error", err.Error)]⟩
    | (user, none) =>
      match h.userUseCase.Authenticate P B tAccess tRefresh req.Email req.Password with
      | (_, _, _, some err) =>
        if err = GoError.ErrorWrongPassword then
          ⟨http.StatusUnauthorized,
            .H [("details", "Неверный email или пароль"), ("error", "Ошибка аутентификации")]⟩
        else ⟨http.StatusInternalServerError, .H [("error", err.Error)]⟩
      | (accessToken, refreshToken, expiresIn, none) =>
        ⟨http.StatusOK, .Tokens
          { AccessToken := accessToken, RefreshToken := refreshToken, ExpiresIn := expiresIn,
            UserID := user.ID, Role := user.Role }⟩

/-- The method `UserHandler.RefreshToken`.  The clock is read at `tValidate` by
`ValidateToken`, at `tAccess` by `GenerateAccessToken` and at `tRefresh` by
`GenerateRefreshToken`.  A nil claims pointer together with a nil error, which
`ValidateToken` never returns, would make `claims.UserID` panic; the second branch
stands for the answer of the recovery middleware, status 500 without a body. -/
def UserHandler.RefreshToken (P : jwt.Primitives) (tValidate tAccess tRefresh : Time)
    (h : UserHandler) (req : RefreshRequest) (bindErr : Option GoError) : Response :=
  match bindErr with
  | some err => ⟨http.StatusBadRequest, .H [("error", err.Error)]⟩
  | none =>
    match auth.ValidateToken P tValidate req.RefreshToken with
    | (_, some _) => ⟨http.StatusUnauthorized, .H [("error", "Невалидный refresh токен")]⟩
    | (none, none) => ⟨http.StatusInternalServerError, .H []⟩
    | (some claims, none) =>
      match h.userUseCase.GetUserByID claims.UserID with
      | (_, some _) => ⟨http.StatusUnauthorized, .H [("error", "Пользователь не найден")]⟩
      | (_, none) =>
        match auth.GenerateAccessToken P tAccess claims.UserID with
        | (_, _, some _) =>
          ⟨http.StatusInternalServerError, .H [("error", "Ошибка генерации токена")]⟩
        | (accessToken, expiresIn, none) =>
          match auth.GenerateRefreshToken P tRefresh claims.UserID with
          | (_, some _) =>
            ⟨http.StatusInternalServerError, .H [("error", "Ошибка генерации refresh токена")]⟩
          | (refreshToken, none) =>
            ⟨http.StatusOK, .Tokens
              { AccessToken := accessToken, RefreshToken := refreshToken,
                ExpiresIn := expiresIn }⟩

/-- The method `UserHandler.UpdatePassword`: the handler after the call and the
response.  The pair `(id, atoiErr)` is what `strconv.Atoi(c.Param("id"))` returns
and the pair `(password, bindErr)` what `c.ShouldBindJSON(&updateData)` leaves;
`salt` is for the `HashPassword` call of the handler and `saltRow` for the one of
the repository. -/
def UserHandler.UpdatePassword (B : bcrypt.Primitives) (salt saltRow : Bytes)
    (h : UserHandler) (id : Int) (atoiErr : Option GoError) (password : String)
    (bindErr : Option GoError) : UserHandler × Response :=
  match atoiErr with
  | some _ => (h, ⟨http.StatusBadRequest, .H [("error", "Параметр id недействительный")]⟩)
  | none =>
    match bindErr with
    | some err => (h, ⟨http.StatusBadRequest, .H [("error", err.Error)]⟩)
    | none =>
      match h.userUseCase.GetUserByID id with
      | (_, some err) => (h, ⟨http.StatusNotFound, .H [("error", err.Error)]⟩)
      | (user, none) =>
        let user := { user with Password := password }
        match user.HashPassword B salt with
        | (_, some _) =>
          (h, ⟨http.StatusBadRequest, .H [("error", "Ошибка обработки пароля")]⟩)
        | (user, none) =>
          match h.userUseCase.UpdateUser B saltRow id user with
          | (uc, _, some err) =>
            (⟨uc⟩, ⟨http.StatusInternalServerError, .H [("error", err.Error)]⟩)
          | (uc, updateUser, none) =>
            (⟨uc⟩, ⟨http.StatusOK, .User { updateUser with Password := ":)" }⟩)

/-- What a middleware leaves: the request aborted with a status and a JSON body
(`c.AbortWithStatusJSON`), or the context value `userID` set and the rest of the
chain called (`c.Set` and `c.Next`). -/
inductive Outcome where
  | Abort (status : Nat) (body : Body)
  | Next (userID : Int)
  deriving DecidableEq, Repr

/-- The handler function that `AuthMiddleware()` returns, on a request whose
`Authorization` header is `authHeader`; the clock is read at `now` by
`ValidateToken`.  A nil claims pointer together with a nil error, which
`ValidateToken` never returns, would make `claims.UserID` panic; the third branch
stands for the answer of the recovery middleware, status 500 without a body. -/
def AuthMiddleware (P : jwt.Primitives) (now : Time) (authHeader : String) : Outcome :=
  if authHeader = "" then
    .Abort http.StatusUnauthorized (.H [("error", "Отсутствие хедера")])
  else
    let tokenString := strings.TrimPrefix authHeader "Bearer "
    match auth.ValidateToken P now tokenString with
    | (_, some _) => .Abort http.StatusUnauthorized (.H [("error", "Невалидный токен")])
    | (none, none) => .Abort http.StatusInternalServerError (.H [])
    | (some claims, none) => .Next claims.UserID

/-- A route of the group that uses `AuthMiddleware`: the chain of gin runs the
middleware and then, unless the request was aborted, the handler of the route with
the context value `userID`; an aborted request is answered with what the
middleware wrote. -/
def Protected (P : jwt.Primitives) (now : Time) (authHeader : String)
    (route : Int → Response) : Response :=
  match AuthMiddleware P now authHeader with
  | .Abort status body => ⟨status, body⟩
  | .Next userID => route userID

end handlers

/-! ## Package `server` (pkg/server/auth_server.go) -/

namespace go

/-- The conversion `int32(n)` of a Go `int`: the value reduced to 32 bits in two's
complement. -/
def int32 (n : Int) : Int := (n + 2147483648) % 4294967296 - 2147483648

end go

namespace server

/-- Modelled from the spec: the message type `TokenResponse` of the generated package
`pkg/api/g_rpc`, which is not among the sources; its fields as the server sets
them (`Valid` a bool, `Error` a string). -/
structure TokenResponse where
  Valid : Bool := false
  Error : String := ""
  deriving DecidableEq, Repr

/-- Modelled from the spec: the message type `UserIDResponse` of the generated package
`pkg/api/g_rpc`, which is not among the sources; its fields as the server sets
them and the client reads them (`UserId` an int32, `Error` a string). -/
structure UserIDResponse where
  UserId : Int := 0
  Error : String := ""
  deriving DecidableEq, Repr

/-- The method `AuthServer.ValidateToken` on a request with token `token`: the
response and the error of the call. -/
def AuthServer.ValidateToken (P : jwt.Primitives) (now : Time) (token : String) :
    TokenResponse × Option GoError :=
  match auth.ValidateToken P now token with
  | (_, some err) => ({ Valid := false, Error := err.Error }, none)
  | (_, none) => ({ Valid := true }, none)

/-- The method `AuthServer.GetUserID` on a request with token `token`: the response and
the error of the call.  A nil claims pointer together with a nil error, which
`ValidateToken` never returns, would make `claims.UserID` panic; the second branch
stands for that. -/
def AuthServer.GetUserID (P : jwt.Primitives) (now : Time) (token : String) :
    UserIDResponse × Option GoError :=
  match auth.ValidateToken P now token with
  | (_, some err) => ({ Error := err.Error }, none)
  | (none, none) => ({}, some (GoError.text "nil pointer dereference"))
  | (some claims, none) => ({ UserId := go.int32 claims.UserID }, none)

end server

/-! ## Derived notions used in the statements -/

namespace auth

/-- The header that `jwt.NewWithClaims` writes for an HMAC method. -/
def headerOf (h : jwt.HMAC) : jwt.Header := ⟨some "JWT", some (jwt.SigningMethod.hmac h).Alg⟩

/-- The token string that a party holding the secret `key` signs for claims `c` with
HMAC method `h`. -/
def signedWith (P : jwt.Primitives) (h : jwt.HMAC) (key : Bytes) (c : Claims) : String :=
  jwt.Compact P (headerOf h) c
    (P.Mac h key (P.EncodeSegment (P.MarshalHeader (headerOf h)) ++ "."
      ++ P.EncodeSegment (P.MarshalClaims c)))

/-- The token string the service signs for claims `c` with HMAC method `h`. -/
def signed (P : jwt.Primitives) (h : jwt.HMAC) (c : Claims) : String :=
  signedWith P h secretKey c

/-- Claims with a user ID and an expiration and nothing else, as both generators
build them. -/
def expClaims (userID : Int) (exp : Int) : Claims := { UserID := userID, ExpiresAt := some exp }

/-- The expiration, in Unix seconds, of an access token issued at `now`. -/
def accessExp (now : Time) : Int := time.Unix (time.Add now (15 * time.Minute))

/-- The expiration, in Unix seconds, of a refresh token issued at `now`. -/
def refreshExp (now : Time) : Int := time.Unix (time.Add now (7 * 24 * time.Hour))

/-- The expiration of the claims, if there is one, has not elapsed at `now`. -/
def NotExpired (now : Time) (c : Claims) : Bool :=
  match c.ExpiresAt with
  | none => true
  | some exp => decide (now < jwt.NumericDate.Time exp)

/-- The not-before instant of the claims, if there is one, is reached at `now`. -/
def NotBeforeReached (now : Time) (c : Claims) : Bool :=
  match c.NotBefore with
  | none => true
  | some nbf => decide (jwt.NumericDate.Time nbf ≤ now)

/-- The token string `s` is the compact serialisation `p0.p1.p2`, three segments
without a dot joined by dots, of which the first decodes to the header `header`,
the second to the claims `c` and the third to the signature `sig`; `text` is its
signing string `p0.p1`.  This reads the token format itself and does not refer to
the parser. -/
def IsCompact (P : jwt.Primitives) (s : String) (header : jwt.Header) (c : Claims)
    (sig : Bytes) (text : String) : Prop :=
  ∃ p0 p1 p2 : String,
    s = p0 ++ "." ++ p1 ++ "." ++ p2
    ∧ '.' ∉ p0.toList ∧ '.' ∉ p1.toList ∧ '.' ∉ p2.toList
    ∧ text = p0 ++ "." ++ p1
    ∧ (P.DecodeSegment p0).bind P.UnmarshalHeader = some header
    ∧ (P.DecodeSegment p1).bind P.UnmarshalClaims = some c
    ∧ P.DecodeSegment p2 = some sig

/-- The signature of the token string `s`, which carries the claims `c`, verifies under
the secret `key`: the header names one of the three HMAC methods and the signature
is the keyed hash of the signing string under `key` for that method. -/
def SignatureVerifies (P : jwt.Primitives) (key : Bytes) (s : String) (c : Claims) : Prop :=
  ∃ (header : jwt.Header) (sig : Bytes) (text : String) (m : jwt.HMAC),
    IsCompact P s header c sig text
    ∧ header.alg = some (jwt.SigningMethod.hmac m).Alg
    ∧ sig = P.Mac m key text

end auth

/-! ## The invariant of the store -/

namespace sql

/-- Every stored user has a hash in the password field. -/
def DB.StoresHashes (B : bcrypt.Primitives) (db : DB) : Prop :=
  ∀ u ∈ db.users, bcrypt.IsHash B u.Password

end sql

/-! ## A concrete instance of the primitives

An instance on which the laws hold, used to evaluate the service at concrete
inputs.  Values are numbered through `Encodable`; a segment is a run of the
letter `A` whose length is the number of its bytes. -/

namespace toy

/-- The code points of a string. -/
def codes (s : String) : List Nat := s.toList.map Char.toNat

/-- The string with the given code points. -/
def uncodes (l : List Nat) : String := String.mk (l.map Char.ofNat)

/-- A header as a value of an encodable type. -/
def headerCode (h : jwt.Header) : Option (List Nat) × Option (List Nat) :=
  (h.typ.map codes, h.alg.map codes)

/-- The header with the given code. -/
def headerOfCode (p : Option (List Nat) × Option (List Nat)) : jwt.Header :=
  ⟨p.1.map uncodes, p.2.map uncodes⟩

/-- Claims as a value of an encodable type. -/
def claimsCode (c : auth.Claims) :
    (List Nat × List Nat × List (List Nat)) × (Option Int × Option Int × Option Int)
      × (List Nat × Int) :=
  ((codes c.Issuer, codes c.Subject, c.Audience.map codes),
   (c.ExpiresAt, c.NotBefore, c.IssuedAt), (codes c.ID, c.UserID))

/-- The claims with the given code. -/
def claimsOfCode
    (p : (List Nat × List Nat × List (List Nat)) × (Option Int × Option Int × Option Int)
      × (List Nat × Int)) : auth.Claims :=
  { Issuer := uncodes p.1.1, Subject := uncodes p.1.2.1, Audience := p.1.2.2.map uncodes,
    ExpiresAt := p.2.1.1, NotBefore := p.2.1.2.1, IssuedAt := p.2.1.2.2,
    ID := uncodes p.2.2.1, UserID := p.2.2.2 }

/-- Segment encoding of the instance. -/
def encodeSegment (b : Bytes) : String := String.mk (List.replicate (Encodable.encode b) 'A')

/-- Segment decoding of the instance. -/
def decodeSegment (s : String) : Option Bytes :=
  if s.toList.all (fun ch => decide (ch = 'A')) then Encodable.decode s.length else none

/-- Header serialisation of the instance. -/
def marshalHeader (h : jwt.Header) : Bytes := [Encodable.encode (headerCode h)]

/-- Header parsing of the instance. -/
def unmarshalHeader (b : Bytes) : Option jwt.Header :=
  match b with
  | [n] => (Encodable.decode n).map headerOfCode
  | _ => none

/-- Claims serialisation of the instance. -/
def marshalClaims (c : auth.Claims) : Bytes := [Encodable.encode (claimsCode c)]

/-- Claims parsing of the instance. -/
def unmarshalClaims (b : Bytes) : Option auth.Claims :=
  match b with
  | [n] => (Encodable.decode n).map claimsOfCode
  | _ => none

/-- The keyed hash of the instance: a tag for the hash, the key and the message. -/
def mac (h : jwt.HMAC) (key : Bytes) (s : String) : Bytes :=
  (match h with
    | .HS256 => 256
    | .HS384 => 384
    | .HS512 => 512) :: key ++ codes s

/-- The instance. -/
def primitives : jwt.Primitives where
  EncodeSegment := encodeSegment
  DecodeSegment := decodeSegment
  MarshalHeader := marshalHeader
  UnmarshalHeader := unmarshalHeader
  MarshalClaims := marshalClaims
  UnmarshalClaims := unmarshalClaims
  Mac := mac
  DecodeSegmentError := fun _ => "illegal base64 data at input byte 0"
  UnmarshalHeaderError := fun _ => "unexpected end of JSON input"
  UnmarshalClaimsError := fun _ => "unexpected end of JSON input"
  InvalidKeyTypeError := fun _ => "key is of invalid type"

/-- The instance for bcrypt: a hash is the password behind a marker. -/
def bcryptPrimitives : bcrypt.Primitives where
  GenerateFromPassword := fun _ password _ =>
    if 72 < password.utf8ByteSize then ("", some bcrypt.ErrPasswordTooLong)
    else ("$2a$" ++ password, none)
  CompareHashAndPassword := fun hashedPassword password =>
    if password.utf8ByteSize ≤ 72 ∧ hashedPassword = "$2a$" ++ password then none
    else some (GoError.bcrypt "crypto/bcrypt: hashedPassword is not the hash of the given password")

end toy

namespace toy

/-- Claims with an expiration at second 2000 and a not-before instant at second
1500. -/
def notYetValid : auth.Claims := { UserID := 7, ExpiresAt := some 2000, NotBefore := some 1500 }

/-- Claims with every registered claim filled in: expiration at second 2000, not-before
at second 500 and an issued-at at second 3000. -/
def fullClaims : auth.Claims :=
  { UserID := 7, Issuer := "someone", Subject := "anything", Audience := ["elsewhere"],
    ExpiresAt := some 2000, NotBefore := some 500, IssuedAt := some 3000, ID := "id-1" }

/-- A stored user whose credential is the hash of `secret1`. -/
def alice : models.User :=
  { ID := 7, Name := "Alice", Email := "a@b.com", Password := "$2a$secret1", Role := "user" }

/-- A database holding that one user. -/
def db : sql.DB := { users := [alice] }

/-- The use case over that database. -/
def uc : usecase.UserUseCase := ⟨⟨db⟩⟩

/-- A plaintext of 73 bytes. -/
def longPassword : String :=
  "aaaaaaaaaaaaaaaaaaaaaaaaaaaaaaaaaaaaaaaaaaaaaaaaaaaaaaaaaaaaaaaaaaaaaaaaa"

/-- A database on which every statement fails. -/
def brokenDB : sql.DB := { users := [alice], fault := some "db error" }

/-- A database whose one row holds a password that is not a hash. -/
def legacyDB : sql.DB :=
  { users := [{ ID := 1, Name := "test", Email := "test@test.com", Password := "correctpass",
                Role := "user" }] }

/-- The handler over that use case. -/
def handler : handlers.UserHandler := ⟨uc⟩

end toy

/-! ## Lemmas on the jwt model -/

namespace jwt

theorem splitDots_of_not_mem (a : List Char) (h : '.' ∉ a) : splitDots a = [a] := by
  induction a with
  | nil => rfl
  | cons c cs ih =>
    have hc : c ≠ '.' := fun e => h (by simp [e])
    have hcs : '.' ∉ cs := fun e => h (List.mem_cons_of_mem _ e)
    simp [splitDots, hc, ih hcs]

theorem splitDots_append (a rest : List Char) (h : '.' ∉ a) :
    splitDots (a ++ '.' :: rest) = a :: splitDots rest := by
  induction a with
  | nil => simp [splitDots]
  | cons c cs ih =>
    have hc : c ≠ '.' := fun e => h (by simp [e])
    have hcs : '.' ∉ cs := fun e => h (List.mem_cons_of_mem _ e)
    simp [splitDots, hc, ih hcs]

theorem Split_three (x y z : String) (hx : '.' ∉ x.toList) (hy : '.' ∉ y.toList)
    (hz : '.' ∉ z.toList) : Split (x ++ "." ++ y ++ "." ++ z) = [x, y, z] := by
  have e : (x ++ "." ++ y ++ "." ++ z).toList
      = x.toList ++ '.' :: (y.toList ++ '.' :: z.toList) := by
    simp [String.toList]
  unfold Split
  rw [e, splitDots_append _ _ hx, splitDots_append _ _ hy, splitDots_of_not_mem _ hz]
  simp [String.toList]

end jwt

namespace jwt

theorem GetSigningMethod_hmac (h : HMAC) :
    GetSigningMethod (SigningMethod.hmac h).Alg = some (SigningMethod.hmac h) := by
  cases h <;> decide

theorem SignedString_hmac (P : Primitives) (h : HMAC) (c : auth.Claims) (key : Bytes) :
    (NewWithClaims (.hmac h) c).SignedString P key
      = (Compact P ⟨some "JWT", some (SigningMethod.hmac h).Alg⟩ c
          (P.Mac h key ((NewWithClaims (.hmac h) c).SigningString P)), Option.none) := by
  simp [Token.SignedString, NewWithClaims, SigningMethod.Sign, Compact, Token.SigningString]

theorem ParseUnverified_Compact {P : Primitives} (hP : P.Lawful) (header : Header)
    (c : auth.Claims) (sig : Bytes) (alg : String) (m : SigningMethod)
    (halg : header.alg = some alg) (hm : GetSigningMethod alg = some m) :
    ParseUnverified P (Compact P header c sig)
      = ({ Raw := Compact P header c sig, Header := header, Claims := c, Method := some m },
         [P.EncodeSegment (P.MarshalHeader header), P.EncodeSegment (P.MarshalClaims c),
          P.EncodeSegment sig], Option.none) := by
  unfold ParseUnverified
  have hs : Split (Compact P header c sig)
      = [P.EncodeSegment (P.MarshalHeader header), P.EncodeSegment (P.MarshalClaims c),
          P.EncodeSegment sig] :=
    Split_three _ _ _ (hP.encode_no_dot _) (hP.encode_no_dot _) (hP.encode_no_dot _)
  simp only [hs, hP.decode_encode, hP.header_roundtrip, hP.claims_roundtrip, halg, hm]

theorem ParseUnverified_segments (P : Primitives) (s p0 p1 p2 : String) (header : Header)
    (c : auth.Claims) (alg : String) (m : SigningMethod)
    (hs : Split s = [p0, p1, p2])
    (h0 : (P.DecodeSegment p0).bind P.UnmarshalHeader = some header)
    (h1 : (P.DecodeSegment p1).bind P.UnmarshalClaims = some c)
    (halg : header.alg = some alg) (hm : GetSigningMethod alg = some m) :
    ParseUnverified P s
      = ({ Raw := s, Header := header, Claims := c, Method := some m }, [p0, p1, p2],
          Option.none) := by
  obtain ⟨hb, hd0, hu0⟩ := Option.bind_eq_some.mp h0
  obtain ⟨cb, hd1, hu1⟩ := Option.bind_eq_some.mp h1
  unfold ParseUnverified
  simp only [hs, hd0, hu0, hd1, hu1, halg, hm]

theorem ParseWithClaims_segments (P : Primitives) (skip : Bool) (now : Time) (key : Bytes)
    (s p0 p1 p2 : String) (header : Header) (c : auth.Claims) (sig : Bytes) (alg : String)
    (m : SigningMethod) (hs : Split s = [p0, p1, p2])
    (h0 : (P.DecodeSegment p0).bind P.UnmarshalHeader = some header)
    (h1 : (P.DecodeSegment p1).bind P.UnmarshalClaims = some c)
    (halg : header.alg = some alg) (hm : GetSigningMethod alg = some m)
    (h2 : P.DecodeSegment p2 = some sig) :
    Parser.ParseWithClaims P skip now s key
      = (let token : Token :=
           { Raw := s, Header := header, Claims := c, Method := some m, Signature := sig }
         match m.Verify P (p0 ++ "." ++ p1) sig key with
         | some cause => (token, some (JwtErr.ErrTokenSignatureInvalid cause))
         | Option.none =>
           if skip then ({ token with Valid := true }, Option.none)
           else
             match Validate now c.toRegisteredClaims with
             | some err => (token, some err)
             | Option.none => ({ token with Valid := true }, Option.none)) := by
  unfold Parser.ParseWithClaims
  simp only [ParseUnverified_segments P s p0 p1 p2 header c alg m hs h0 h1 halg hm, h2]

theorem ParseWithClaims_Compact {P : Primitives} (hP : P.Lawful) (skip : Bool) (now : Time)
    (key : Bytes) (header : Header) (c : auth.Claims) (sig : Bytes) (alg : String)
    (m : SigningMethod) (halg : header.alg = some alg) (hm : GetSigningMethod alg = some m) :
    Parser.ParseWithClaims P skip now (Compact P header c sig) key
      = (let token : Token :=
           { Raw := Compact P header c sig, Header := header, Claims := c, Method := some m,
             Signature := sig }
         match m.Verify P (P.EncodeSegment (P.MarshalHeader header) ++ "."
               ++ P.EncodeSegment (P.MarshalClaims c)) sig key with
         | some cause => (token, some (JwtErr.ErrTokenSignatureInvalid cause))
         | Option.none =>
           if skip then ({ token with Valid := true }, Option.none)
           else
             match Validate now c.toRegisteredClaims with
             | some err => (token, some err)
             | Option.none => ({ token with Valid := true }, Option.none)) :=
  ParseWithClaims_segments P skip now key _ _ _ _ header c sig alg m
    (Split_three _ _ _ (hP.encode_no_dot _) (hP.encode_no_dot _) (hP.encode_no_dot _))
    (by simp [hP.decode_encode, hP.header_roundtrip])
    (by simp [hP.decode_encode, hP.claims_roundtrip]) halg hm (hP.decode_encode sig)

end jwt

/-! ## The concrete instance is lawful -/

namespace toy

theorem uncodes_codes (s : String) : uncodes (codes s) = s := by
  simp [uncodes, codes, String.toList, Function.comp_def]

theorem headerOfCode_headerCode (h : jwt.Header) : headerOfCode (headerCode h) = h := by
  cases h with
  | mk typ alg => cases typ <;> cases alg <;> simp [headerOfCode, headerCode, uncodes_codes]

theorem claimsOfCode_claimsCode (c : auth.Claims) : claimsOfCode (claimsCode c) = c := by
  have hl : ∀ l : List String, List.map (uncodes ∘ codes) l = l := by
    intro l
    induction l with
    | nil => rfl
    | cons a t ih => simp [uncodes_codes, ih]
  cases c with
  | mk r uid =>
    cases r
    simp [claimsOfCode, claimsCode, uncodes_codes, hl]

theorem decodeSegment_encodeSegment (b : Bytes) : decodeSegment (encodeSegment b) = some b := by
  have h1 : (String.mk (List.replicate (Encodable.encode b) 'A')).toList.all
      (fun ch => decide (ch = 'A')) = true := by
    rw [List.all_eq_true]
    intro x hx
    have := List.eq_of_mem_replicate hx
    simp [this]
  have h2 : (String.mk (List.replicate (Encodable.encode b) 'A')).length
      = Encodable.encode b := by
    show (List.replicate (Encodable.encode b) 'A').length = _
    exact List.length_replicate _ _
  unfold decodeSegment encodeSegment
  rw [h1, h2, if_pos rfl, Encodable.encodek]

theorem encodeSegment_no_dot (b : Bytes) : '.' ∉ (encodeSegment b).toList := by
  intro hmem
  have h : '.' ∈ List.replicate (Encodable.encode b) 'A' := hmem
  have := List.eq_of_mem_replicate h
  exact absurd this (by decide)

theorem unmarshalHeader_marshalHeader (h : jwt.Header) :
    unmarshalHeader (marshalHeader h) = some h := by
  unfold unmarshalHeader marshalHeader
  simp only [Encodable.encodek, Option.map_some', headerOfCode_headerCode]

theorem unmarshalClaims_marshalClaims (c : auth.Claims) :
    unmarshalClaims (marshalClaims c) = some c := by
  unfold unmarshalClaims marshalClaims
  simp only [Encodable.encodek, Option.map_some', claimsOfCode_claimsCode]

theorem primitives_lawful : primitives.Lawful where
  decode_encode := by
    intro b
    simp only [primitives]
    exact decodeSegment_encodeSegment b
  encode_no_dot := by
    intro b
    simp only [primitives]
    exact encodeSegment_no_dot b
  header_roundtrip := by
    intro h
    simp only [primitives]
    exact unmarshalHeader_marshalHeader h
  claims_roundtrip := by
    intro c
    simp only [primitives]
    exact unmarshalClaims_marshalClaims c

end toy

/-! ## Lemmas on package `auth` -/

namespace auth

theorem GenerateAccessToken_eq (P : jwt.Primitives) (now : Time) (userID : Int) :
    GenerateAccessToken P now userID
      = (signed P .HS256 (expClaims userID (accessExp now)), accessExp now, none) := by
  unfold GenerateAccessToken
  simp only [jwt.SignedString_hmac]
  rfl

theorem GenerateRefreshToken_eq (P : jwt.Primitives) (now : Time) (userID : Int) :
    GenerateRefreshToken P now userID
      = (signed P .HS256 (expClaims userID (refreshExp now)), none) := by
  unfold GenerateRefreshToken
  simp only [jwt.SignedString_hmac]
  rfl

theorem ValidateToken_Compact {P : jwt.Primitives} (hP : P.Lawful) (now : Time)
    (header : jwt.Header) (c : Claims) (sig : Bytes) (alg : String) (m : jwt.SigningMethod)
    (halg : header.alg = some alg) (hm : jwt.GetSigningMethod alg = some m) :
    ValidateToken P now (jwt.Compact P header c sig)
      = (match m.Verify P (P.EncodeSegment (P.MarshalHeader header) ++ "."
               ++ P.EncodeSegment (P.MarshalClaims c)) sig secretKey with
         | some cause => (none, some (GoError.jwt (JwtErr.ErrTokenSignatureInvalid cause)))
         | none =>
           match jwt.Validate now c.toRegisteredClaims with
           | some err => (none, some (GoError.jwt err))
           | none => (some c, none)) := by
  unfold ValidateToken jwt.ParseWithClaims
  rw [jwt.ParseWithClaims_Compact hP false now secretKey header c sig alg m halg hm]
  cases hv : m.Verify P (P.EncodeSegment (P.MarshalHeader header) ++ "."
               ++ P.EncodeSegment (P.MarshalClaims c)) sig secretKey with
  | some cause => simp
  | none => cases hval : jwt.Validate now c.toRegisteredClaims <;> simp [hval]

theorem ValidateToken_signed {P : jwt.Primitives} (hP : P.Lawful) (now : Time) (h : jwt.HMAC)
    (c : Claims) :
    ValidateToken P now (signed P h c)
      = (match jwt.Validate now c.toRegisteredClaims with
         | some err => (none, some (GoError.jwt err))
         | none => (some c, none)) := by
  unfold signed signedWith
  rw [ValidateToken_Compact hP now (headerOf h) c _ _ (.hmac h) rfl (jwt.GetSigningMethod_hmac h)]
  simp [jwt.SigningMethod.Verify]

theorem Validate_expClaims (tv : Time) (userID : Int) (exp : Int) :
    jwt.Validate tv (expClaims userID exp).toRegisteredClaims
      = if tv < jwt.NumericDate.Time exp then none
        else some (JwtErr.ErrTokenInvalidClaims true false) := by
  by_cases h : tv < jwt.NumericDate.Time exp <;>
    simp [jwt.Validate, expClaims, time.Before, h]

theorem ValidateToken_signed_expClaims {P : jwt.Primitives} (hP : P.Lawful) (tv : Time)
    (h : jwt.HMAC) (userID : Int) (exp : Int) :
    ValidateToken P tv (signed P h (expClaims userID exp))
      = if tv < jwt.NumericDate.Time exp then (some (expClaims userID exp), none)
        else (none, some (GoError.jwt (JwtErr.ErrTokenInvalidClaims true false))) := by
  rw [ValidateToken_signed hP, Validate_expClaims]
  by_cases h : tv < jwt.NumericDate.Time exp <;> simp [h]

theorem accessExp_eq (now : Int) : accessExp now = time.Unix now + 900 := by
  unfold accessExp time.Unix time.Add time.Minute time.Second
  show (now + 15 * (60 * 1000000000)) / 1000000000 = now / 1000000000 + 900
  omega

theorem refreshExp_eq (now : Int) : refreshExp now = time.Unix now + 604800 := by
  unfold refreshExp time.Unix time.Add time.Hour time.Minute time.Second
  show (now + 7 * 24 * (60 * (60 * 1000000000))) / 1000000000 = now / 1000000000 + 604800
  omega

theorem refreshExp_whole_second (now : Int) (h : now % 1000000000 = 0) :
    jwt.NumericDate.Time (time.Unix now + 604800) = time.Add now (7 * 24 * time.Hour) := by
  unfold jwt.NumericDate.Time time.Unix time.Add time.Hour time.Minute time.Second
  show (now / 1000000000 + 604800) * 1000000000 = now + 7 * 24 * (60 * (60 * 1000000000))
  omega

theorem now_lt_accessExp (now : Int) : now < jwt.NumericDate.Time (accessExp now) := by
  rw [accessExp_eq]
  unfold jwt.NumericDate.Time time.Unix
  show now < (now / 1000000000 + 900) * 1000000000
  omega

theorem accessExp_lt_refreshExp (tAccess tRefresh : Int) (h : tAccess ≤ tRefresh) :
    jwt.NumericDate.Time (accessExp tAccess) < jwt.NumericDate.Time (refreshExp tRefresh) := by
  rw [accessExp_eq, refreshExp_eq]
  unfold jwt.NumericDate.Time time.Unix
  show (tAccess / 1000000000 + 900) * 1000000000 < (tRefresh / 1000000000 + 604800) * 1000000000
  omega

end auth

/-! ## Claims on login and on token issuance and validation -/

/-- C1: `Authenticate` returns `("", "", 0, models.ErrorWrongPassword)` both when the
store reports no user with the email (`GetByEmail` yields `ErrorUserNotFound`) and
when the user exists but `CheckPassword` fails: the same error value, empty tokens
and expiry 0 in both cases. -/
theorem C1_authenticate_same_error (P : jwt.Primitives) (B : bcrypt.Primitives)
    (tAccess tRefresh : Time) (uc : usecase.UserUseCase) (email password : String)
    (h : (uc.repo.GetByEmail email).2 = some GoError.ErrorUserNotFound ∨
         ∃ u, uc.repo.GetByEmail email = (u, none) ∧ u.CheckPassword B password ≠ none) :
    uc.Authenticate P B tAccess tRefresh email password
      = ("", "", 0, some GoError.ErrorWrongPassword) := by
  unfold usecase.UserUseCase.Authenticate
  rcases h with h | ⟨u, hu, hp⟩
  · rcases hg : uc.repo.GetByEmail email with ⟨u, e⟩
    rw [hg] at h
    simp only at h
    subst h
    simp
  · rw [hu]
    cases hc : u.CheckPassword B password with
    | none => exact absurd hc hp
    | some e => simp [hc]

/-- Witness for C1: an unknown email and a known email with a wrong password, on a
database with one user. -/
theorem C1_authenticate_same_error_witness :
    toy.uc.Authenticate toy.primitives toy.bcryptPrimitives 0 0 "nobody@b.com" "secret1"
        = ("", "", 0, some GoError.ErrorWrongPassword)
    ∧ toy.uc.Authenticate toy.primitives toy.bcryptPrimitives 0 0 "a@b.com" "wrong"
        = ("", "", 0, some GoError.ErrorWrongPassword) :=
  ⟨C1_authenticate_same_error _ _ _ _ _ _ _ (Or.inl (by decide)),
   C1_authenticate_same_error _ _ _ _ _ _ _ (Or.inr ⟨toy.alice, by decide, by decide⟩)⟩

/-- C2: for every user ID `uid`, `ValidateToken` applied at a time `tv` before the
expiration to the token string that `GenerateAccessToken uid` returned succeeds
with claims whose `UserID` is `uid`; the issuance time itself is such a time. -/
theorem C2_validate_generated_access_token {P : jwt.Primitives} (hP : P.Lawful)
    (now tv : Time) (uid : Int)
    (htv : tv < jwt.NumericDate.Time (auth.GenerateAccessToken P now uid).2.1) :
    (∃ c, auth.ValidateToken P tv (auth.GenerateAccessToken P now uid).1 = (some c, none)
        ∧ c.UserID = uid)
    ∧ (∃ c, auth.ValidateToken P now (auth.GenerateAccessToken P now uid).1 = (some c, none)
        ∧ c.UserID = uid) := by
  rw [auth.GenerateAccessToken_eq] at htv ⊢
  simp only at htv ⊢
  refine ⟨⟨auth.expClaims uid (auth.accessExp now), ?_, rfl⟩,
          ⟨auth.expClaims uid (auth.accessExp now), ?_, rfl⟩⟩
  · rw [auth.ValidateToken_signed_expClaims hP, if_pos htv]
  · rw [auth.ValidateToken_signed_expClaims hP, if_pos (auth.now_lt_accessExp now)]

/-- Witness for C2: user 7, token issued at second 1000 and validated one minute
later. -/
theorem C2_validate_generated_access_token_witness :
    (∃ c, auth.ValidateToken toy.primitives 1060000000000
            (auth.GenerateAccessToken toy.primitives 1000000000000 7).1 = (some c, none)
        ∧ c.UserID = 7)
    ∧ (∃ c, auth.ValidateToken toy.primitives 1000000000000
            (auth.GenerateAccessToken toy.primitives 1000000000000 7).1 = (some c, none)
        ∧ c.UserID = 7) :=
  C2_validate_generated_access_token toy.primitives_lawful 1000000000000 1060000000000 7
    (by rw [auth.GenerateAccessToken_eq]; decide)

/-- C5: for every user ID and issuance time `now`, `GenerateAccessToken` succeeds and
returns as `expiresAt` the Unix seconds of `now` plus 15 minutes, which is the Unix
seconds of `now` plus 900; the expiration claim read back from the returned token
string is that same value. -/
theorem C5_access_token_expiry {P : jwt.Primitives} (hP : P.Lawful) (now : Time) (uid : Int) :
    (auth.GenerateAccessToken P now uid).2.2 = none
    ∧ (auth.GenerateAccessToken P now uid).2.1 = time.Unix (time.Add now (15 * time.Minute))
    ∧ (auth.GenerateAccessToken P now uid).2.1 = time.Unix now + 900
    ∧ (jwt.ParseUnverified P (auth.GenerateAccessToken P now uid).1).1.Claims.ExpiresAt
        = some (auth.GenerateAccessToken P now uid).2.1 := by
  rw [auth.GenerateAccessToken_eq]
  refine ⟨rfl, rfl, auth.accessExp_eq now, ?_⟩
  show (jwt.ParseUnverified P (auth.signed P .HS256 _)).1.Claims.ExpiresAt = _
  unfold auth.signed auth.signedWith
  rw [jwt.ParseUnverified_Compact hP _ _ _ _ (.hmac .HS256) rfl (jwt.GetSigningMethod_hmac _)]
  rfl

/-- Witness for C5: user 7, token issued half a second after second 1000. -/
theorem C5_access_token_expiry_witness :
    (auth.GenerateAccessToken toy.primitives 1000500000000 7).2.2 = none
    ∧ (auth.GenerateAccessToken toy.primitives 1000500000000 7).2.1
        = time.Unix (time.Add 1000500000000 (15 * time.Minute))
    ∧ (auth.GenerateAccessToken toy.primitives 1000500000000 7).2.1
        = time.Unix 1000500000000 + 900
    ∧ (jwt.ParseUnverified toy.primitives
          (auth.GenerateAccessToken toy.primitives 1000500000000 7).1).1.Claims.ExpiresAt
        = some (auth.GenerateAccessToken toy.primitives 1000500000000 7).2.1 :=
  C5_access_token_expiry toy.primitives_lawful 1000500000000 7

/-- The expiration claim read back from a refresh token. -/
theorem auth.GenerateRefreshToken_ExpiresAt {P : jwt.Primitives} (hP : P.Lawful) (now : Time)
    (uid : Int) :
    (jwt.ParseUnverified P (auth.GenerateRefreshToken P now uid).1).1.Claims.ExpiresAt
      = some (auth.refreshExp now) := by
  rw [auth.GenerateRefreshToken_eq]
  show (jwt.ParseUnverified P (auth.signed P .HS256 _)).1.Claims.ExpiresAt = _
  unfold auth.signed auth.signedWith
  rw [jwt.ParseUnverified_Compact hP _ _ _ _ (.hmac .HS256) rfl (jwt.GetSigningMethod_hmac _)]
  rfl

/-- A refresh token validated at or after its expiration is rejected as expired. -/
theorem auth.ValidateToken_GenerateRefreshToken_expired {P : jwt.Primitives} (hP : P.Lawful)
    (now tv : Time) (uid : Int) (h : ¬ tv < jwt.NumericDate.Time (auth.refreshExp now)) :
    auth.ValidateToken P tv (auth.GenerateRefreshToken P now uid).1
      = (none, some (GoError.jwt (JwtErr.ErrTokenInvalidClaims true false))) := by
  rw [auth.GenerateRefreshToken_eq]
  show auth.ValidateToken _ _ (auth.signed _ _ _) = _
  rw [auth.ValidateToken_signed_expClaims hP, if_neg h]

/-- C6: for every user ID and issuance time `now`, `GenerateRefreshToken` succeeds and
the token carries as expiration the Unix seconds of `now` plus 7 days, that is the
Unix seconds of `now` plus 604800 (for `now` on a whole second, the instant `now`
plus 7 days itself); `ValidateToken` accepts the token, with the user ID in the
claims, at every time before that instant and rejects it at that instant and at
every later time. -/
theorem C6_refresh_token_expiry {P : jwt.Primitives} (hP : P.Lawful) (now tv : Time)
    (uid : Int) :
    (auth.GenerateRefreshToken P now uid).2 = none
    ∧ (jwt.ParseUnverified P (auth.GenerateRefreshToken P now uid).1).1.Claims.ExpiresAt
        = some (time.Unix (time.Add now (7 * 24 * time.Hour)))
    ∧ time.Unix (time.Add now (7 * 24 * time.Hour)) = time.Unix now + 604800
    ∧ (now % 1000000000 = 0 →
        jwt.NumericDate.Time (time.Unix now + 604800) = time.Add now (7 * 24 * time.Hour))
    ∧ (tv < jwt.NumericDate.Time (time.Unix now + 604800) →
        ∃ c, auth.ValidateToken P tv (auth.GenerateRefreshToken P now uid).1 = (some c, none)
          ∧ c.UserID = uid)
    ∧ (jwt.NumericDate.Time (time.Unix now + 604800) ≤ tv →
        auth.ValidateToken P tv (auth.GenerateRefreshToken P now uid).1
          = (none, some (GoError.jwt (JwtErr.ErrTokenInvalidClaims true false)))) := by
  rw [auth.GenerateRefreshToken_eq]
  refine ⟨rfl, ?_, auth.refreshExp_eq now, auth.refreshExp_whole_second now, ?_, ?_⟩
  · show (jwt.ParseUnverified P (auth.signed P .HS256 _)).1.Claims.ExpiresAt = _
    unfold auth.signed auth.signedWith
    rw [jwt.ParseUnverified_Compact hP _ _ _ _ (.hmac .HS256) rfl (jwt.GetSigningMethod_hmac _)]
    rfl
  · intro h
    rw [← auth.refreshExp_eq] at h
    exact ⟨_, by rw [auth.ValidateToken_signed_expClaims hP, if_pos h], rfl⟩
  · intro h
    rw [← auth.refreshExp_eq] at h
    rw [auth.ValidateToken_signed_expClaims hP, if_neg (not_lt.mpr h)]

/-- Witness for C6: a refresh token for user 7 issued at second 1000 is accepted one
day later and rejected eight days later. -/
theorem C6_refresh_token_expiry_witness :
    (auth.GenerateRefreshToken toy.primitives 1000000000000 7).2 = none
    ∧ (∃ c, auth.ValidateToken toy.primitives 87400000000000
              (auth.GenerateRefreshToken toy.primitives 1000000000000 7).1 = (some c, none)
          ∧ c.UserID = 7)
    ∧ auth.ValidateToken toy.primitives 692200000000000
          (auth.GenerateRefreshToken toy.primitives 1000000000000 7).1
        = (none, some (GoError.jwt (JwtErr.ErrTokenInvalidClaims true false))) :=
  ⟨(C6_refresh_token_expiry toy.primitives_lawful 1000000000000 0 7).1,
   (C6_refresh_token_expiry toy.primitives_lawful 1000000000000 87400000000000 7).2.2.2.2.1
      (by decide),
   (C6_refresh_token_expiry toy.primitives_lawful 1000000000000 692200000000000 7).2.2.2.2.2
      (by decide)⟩

/-- Counterexample to C6 as stated: a refresh token issued half a second after second
1000 carries the expiration second 605800, not the instant seven days after its
issuance; at 605800.2 seconds, which is before that instant, `ValidateToken`
rejects it. -/
theorem C6_counterexample :
    (jwt.ParseUnverified toy.primitives
        (auth.GenerateRefreshToken toy.primitives 1000500000000 7).1).1.Claims.ExpiresAt
      = some 605800
    ∧ jwt.NumericDate.Time 605800 < time.Add 1000500000000 (7 * 24 * time.Hour)
    ∧ (605800200000000 : Time) < time.Add 1000500000000 (7 * 24 * time.Hour)
    ∧ auth.ValidateToken toy.primitives 605800200000000
          (auth.GenerateRefreshToken toy.primitives 1000500000000 7).1
        = (none, some (GoError.jwt (JwtErr.ErrTokenInvalidClaims true false))) := by
  have hexp : auth.refreshExp 1000500000000 = 605800 := by decide
  refine ⟨?_, by decide, by decide, ?_⟩
  · rw [auth.GenerateRefreshToken_ExpiresAt toy.primitives_lawful, hexp]
  · exact auth.ValidateToken_GenerateRefreshToken_expired toy.primitives_lawful _ _ _
      (by decide)

/-- C7: for every stored user `u` (the row the store returns for `u.Email`) and every
password that verifies against the stored hash, `Authenticate` succeeds and returns
the token of `GenerateAccessToken(u.ID)`, the token of `GenerateRefreshToken(u.ID)`
and the expiry of the access token.  The access token validates at any time `tv`
before its expiration, the issuance time plus 15 minutes in Unix seconds, which
is the expiry returned; the refresh token validates at any time `tvr` before its
own expiration, the issuance time plus 7 days in Unix seconds; both to claims
with `UserID = u.ID`. -/
theorem C7_authenticate_success {P : jwt.Primitives} (hP : P.Lawful) (B : bcrypt.Primitives)
    (tAccess tRefresh tv tvr : Time) (uc : usecase.UserUseCase) (u : models.User)
    (password : String)
    (hu : uc.repo.GetByEmail u.Email = (u, none))
    (hp : u.CheckPassword B password = none)
    (htv : tv < jwt.NumericDate.Time (time.Unix (time.Add tAccess (15 * time.Minute))))
    (htvr : tvr < jwt.NumericDate.Time (time.Unix (time.Add tRefresh (7 * 24 * time.Hour)))) :
    ∃ accessToken refreshToken ca cr,
      uc.Authenticate P B tAccess tRefresh u.Email password
        = (accessToken, refreshToken, time.Unix (time.Add tAccess (15 * time.Minute)), none)
      ∧ accessToken = (auth.GenerateAccessToken P tAccess u.ID).1
      ∧ refreshToken = (auth.GenerateRefreshToken P tRefresh u.ID).1
      ∧ auth.ValidateToken P tv accessToken = (some ca, none)
      ∧ ca.UserID = u.ID
      ∧ ca.ExpiresAt = some (time.Unix (time.Add tAccess (15 * time.Minute)))
      ∧ auth.ValidateToken P tvr refreshToken = (some cr, none)
      ∧ cr.UserID = u.ID
      ∧ cr.ExpiresAt = some (time.Unix (time.Add tRefresh (7 * 24 * time.Hour))) := by
  have htv1 : tv < jwt.NumericDate.Time (auth.accessExp tAccess) := htv
  have htv2 : tvr < jwt.NumericDate.Time (auth.refreshExp tRefresh) := htvr
  refine ⟨auth.signed P .HS256 (auth.expClaims u.ID (auth.accessExp tAccess)),
    auth.signed P .HS256 (auth.expClaims u.ID (auth.refreshExp tRefresh)),
    auth.expClaims u.ID (auth.accessExp tAccess),
    auth.expClaims u.ID (auth.refreshExp tRefresh), ?_, ?_, ?_, ?_, rfl, rfl, ?_, rfl, rfl⟩
  · unfold usecase.UserUseCase.Authenticate
    rw [hu]
    simp only [hp, auth.GenerateAccessToken_eq, auth.GenerateRefreshToken_eq]
    rfl
  · rw [auth.GenerateAccessToken_eq]
  · rw [auth.GenerateRefreshToken_eq]
  · rw [auth.ValidateToken_signed_expClaims hP, if_pos htv1]
  · rw [auth.ValidateToken_signed_expClaims hP, if_pos htv2]

/-- Witness for C7: the stored user logs in with the right password at second 1000;
the access token is validated one minute later and the refresh token six days
later. -/
theorem C7_authenticate_success_witness :
    ∃ accessToken refreshToken ca cr,
      toy.uc.Authenticate toy.primitives toy.bcryptPrimitives 1000000000000 1000000000001
          toy.alice.Email "secret1"
        = (accessToken, refreshToken,
            time.Unix (time.Add 1000000000000 (15 * time.Minute)), none)
      ∧ accessToken = (auth.GenerateAccessToken toy.primitives 1000000000000 toy.alice.ID).1
      ∧ refreshToken = (auth.GenerateRefreshToken toy.primitives 1000000000001 toy.alice.ID).1
      ∧ auth.ValidateToken toy.primitives 1060000000000 accessToken = (some ca, none)
      ∧ ca.UserID = toy.alice.ID
      ∧ ca.ExpiresAt = some (time.Unix (time.Add 1000000000000 (15 * time.Minute)))
      ∧ auth.ValidateToken toy.primitives 519400000000000 refreshToken = (some cr, none)
      ∧ cr.UserID = toy.alice.ID
      ∧ cr.ExpiresAt = some (time.Unix (time.Add 1000000000001 (7 * 24 * time.Hour))) :=
  C7_authenticate_success toy.primitives_lawful toy.bcryptPrimitives 1000000000000
    1000000000001 1060000000000 519400000000000 toy.uc toy.alice "secret1" (by decide)
    (by decide) (by decide) (by decide)

/-! ## Claims on rejected tokens -/

namespace jwt

theorem splitDots_ne_nil (l : List Char) : splitDots l ≠ [] := by
  cases l with
  | nil => simp [splitDots]
  | cons x xs =>
    unfold splitDots
    split
    · simp
    · split <;> simp

theorem joinDots_splitDots (l : List Char) : joinDots (splitDots l) = l := by
  induction l with
  | nil => rfl
  | cons x xs ih =>
    unfold splitDots
    by_cases hx : x = '.'
    · simp only [hx, if_true]
      cases hs : splitDots xs with
      | nil => exact absurd hs (splitDots_ne_nil xs)
      | cons q rest =>
        rw [hs] at ih
        simp [joinDots, ih]
    · simp only [hx, if_false]
      cases hs : splitDots xs with
      | nil => exact absurd hs (splitDots_ne_nil xs)
      | cons q rest =>
        rw [hs] at ih
        cases rest with
        | nil =>
          simp only [joinDots] at ih ⊢
          rw [ih]
        | cons r rest2 =>
          simp only [joinDots] at ih ⊢
          rw [← ih]
          rfl

theorem not_mem_splitDots (l : List Char) : ∀ p ∈ splitDots l, '.' ∉ p := by
  induction l with
  | nil => simp [splitDots]
  | cons x xs ih =>
    unfold splitDots
    by_cases hx : x = '.'
    · simp only [hx, if_true]
      intro p hp
      rcases List.mem_cons.mp hp with h | h
      · subst h
        simp
      · exact ih p h
    · simp only [hx, if_false]
      cases hs : splitDots xs with
      | nil => exact absurd hs (splitDots_ne_nil xs)
      | cons q rest =>
        rw [hs] at ih
        intro p hp
        rcases List.mem_cons.mp hp with h | h
        · subst h
          intro hmem
          rcases List.mem_cons.mp hmem with h1 | h1
          · exact hx h1.symm
          · exact ih q (List.mem_cons_self _ _) h1
        · exact ih p (List.mem_cons_of_mem _ h)

theorem eq_of_Split_three (s p0 p1 p2 : String) (h : Split s = [p0, p1, p2]) :
    s = p0 ++ "." ++ p1 ++ "." ++ p2
    ∧ '.' ∉ p0.toList ∧ '.' ∉ p1.toList ∧ '.' ∉ p2.toList := by
  unfold Split at h
  have hparts : splitDots s.toList = [p0.data, p1.data, p2.data] := by
    rcases hsd : splitDots s.toList with _ | ⟨a, _ | ⟨b, _ | ⟨c, _ | ⟨d, rest⟩⟩⟩⟩ <;>
      rw [hsd] at h <;> simp at h
    obtain ⟨ha, hb, hc⟩ := h
    subst ha hb hc
    rfl
  have hj := joinDots_splitDots s.toList
  have hn := not_mem_splitDots s.toList
  rw [hparts] at hj hn
  refine ⟨?_, hn _ (by simp), hn _ (by simp), hn _ (by simp)⟩
  apply String.ext
  rw [← show s.toList = s.data from rfl, ← hj]
  simp [joinDots, String.data_append]

theorem Alg_of_GetSigningMethod_hmac (alg : String) (h : HMAC)
    (hm : GetSigningMethod alg = some (SigningMethod.hmac h)) :
    alg = (SigningMethod.hmac h).Alg := by
  unfold GetSigningMethod at hm
  split at hm
  · rename_i ha
    simp only [Option.some.injEq, SigningMethod.hmac.injEq] at hm
    subst hm
    exact ha
  · split at hm
    · rename_i ha
      simp only [Option.some.injEq, SigningMethod.hmac.injEq] at hm
      subst hm
      exact ha
    · split at hm
      · rename_i ha
        simp only [Option.some.injEq, SigningMethod.hmac.injEq] at hm
        subst hm
        exact ha
      · split at hm
        · simp at hm
        · split at hm <;> simp at hm

theorem ParseUnverified_ok_inv (P : Primitives) (s : String) (token : Token)
    (parts : List String) (h : ParseUnverified P s = (token, parts, Option.none)) :
    ∃ p0 p1 p2 header c alg m,
      Split s = [p0, p1, p2] ∧ parts = [p0, p1, p2]
      ∧ (P.DecodeSegment p0).bind P.UnmarshalHeader = some header
      ∧ (P.DecodeSegment p1).bind P.UnmarshalClaims = some c
      ∧ header.alg = some alg ∧ GetSigningMethod alg = some m
      ∧ token = { Raw := s, Header := header, Claims := c, Method := some m } := by
  unfold ParseUnverified at h
  simp only [] at h
  rcases hsp : Split s with _ | ⟨p0, _ | ⟨p1, _ | ⟨p2, _ | ⟨p3, rest⟩⟩⟩⟩ <;>
    rw [hsp] at h <;> simp only [] at h <;> try (simp at h)
  cases hd0 : P.DecodeSegment p0 with
  | none =>
    simp only [hd0] at h
    split at h <;> simp at h
  | some hb =>
    cases hu0 : P.UnmarshalHeader hb with
    | none => simp [hd0, hu0] at h
    | some header =>
      cases hd1 : P.DecodeSegment p1 with
      | none => simp [hd0, hu0, hd1] at h
      | some cb =>
        cases hu1 : P.UnmarshalClaims cb with
        | none => simp [hd0, hu0, hd1, hu1] at h
        | some c =>
          cases halg : header.alg with
          | none => simp [hd0, hu0, hd1, hu1, halg] at h
          | some alg =>
            cases hm : GetSigningMethod alg with
            | none => simp [hd0, hu0, hd1, hu1, halg, hm] at h
            | some m =>
              simp only [hd0, hu0, hd1, hu1, halg, hm, Prod.mk.injEq, and_true] at h
              exact ⟨p0, p1, p2, header, c, alg, m, rfl, h.2.symm, by rw [hd0]; exact hu0,
                by rw [hd1]; exact hu1, halg, hm, h.1.symm⟩

theorem ParseWithClaims_ok_inv (P : Primitives) (now : Time) (key : Bytes) (s : String)
    (token : Token) (h : Parser.ParseWithClaims P false now s key = (token, Option.none)) :
    ∃ p0 p1 p2 header sig alg m,
      Split s = [p0, p1, p2]
      ∧ (P.DecodeSegment p0).bind P.UnmarshalHeader = some header
      ∧ (P.DecodeSegment p1).bind P.UnmarshalClaims = some token.Claims
      ∧ header.alg = some alg ∧ GetSigningMethod alg = some m
      ∧ P.DecodeSegment p2 = some sig
      ∧ m.Verify P (p0 ++ "." ++ p1) sig key = Option.none
      ∧ Validate now token.Claims.toRegisteredClaims = Option.none
      ∧ token.Valid = true := by
  rcases hpu : ParseUnverified P s with ⟨tok, parts, err⟩
  cases err with
  | some e =>
    unfold Parser.ParseWithClaims at h
    simp [hpu] at h
  | none =>
    obtain ⟨p0, p1, p2, header, c, alg, m, hs, _, h0, h1, halg, hm, _⟩ :=
      ParseUnverified_ok_inv P s tok parts hpu
    cases hd2 : P.DecodeSegment p2 with
    | none =>
      unfold Parser.ParseWithClaims at h
      rw [ParseUnverified_segments P s p0 p1 p2 header c alg m hs h0 h1 halg hm] at h
      simp [hd2] at h
    | some sig =>
      rw [ParseWithClaims_segments P false now key s p0 p1 p2 header c sig alg m hs h0 h1
        halg hm hd2] at h
      cases hv : m.Verify P (p0 ++ "." ++ p1) sig key with
      | some cause => simp [hv] at h
      | none =>
        cases hval : Validate now c.toRegisteredClaims with
        | some e => simp [hv, hval] at h
        | none =>
          simp only [hv, hval, Bool.false_eq_true, if_false, Prod.mk.injEq, and_true] at h
          subst h
          exact ⟨p0, p1, p2, header, sig, alg, m, hs, h0, h1, halg, hm, hd2, hv, hval, rfl⟩

end jwt

namespace auth

theorem ValidateToken_cases (P : jwt.Primitives) (now : Time) (s : String) :
    (∃ c, ValidateToken P now s = (some c, none))
    ∨ (∃ e, ValidateToken P now s = (none, some e)) := by
  unfold ValidateToken
  rcases jwt.ParseWithClaims P now s secretKey with ⟨token, err⟩
  cases err with
  | some e => exact Or.inr ⟨_, rfl⟩
  | none =>
    by_cases hv : token.Valid = true
    · exact Or.inl ⟨token.Claims, by simp [hv]⟩
    · exact Or.inr ⟨GoError.ErrorInvalidToken, by simp [hv]⟩

theorem ValidateToken_wrong_segments (P : jwt.Primitives) (now : Time) (s : String)
    (h : (jwt.Split s).length ≠ 3) :
    ValidateToken P now s
      = (none, some (GoError.jwt
          (JwtErr.ErrTokenMalformed "token contains an invalid number of segments"))) := by
  have hpu : (jwt.ParseUnverified P s).2.2
      = some (JwtErr.ErrTokenMalformed "token contains an invalid number of segments") := by
    unfold jwt.ParseUnverified
    simp only []
    rcases hsp : jwt.Split s with _ | ⟨p0, _ | ⟨p1, _ | ⟨p2, _ | ⟨p3, rest⟩⟩⟩⟩ <;> try rfl
    rw [hsp] at h
    simp at h
  unfold ValidateToken jwt.ParseWithClaims jwt.Parser.ParseWithClaims
  rcases hr : jwt.ParseUnverified P s with ⟨token, parts, err⟩
  rw [hr] at hpu
  simp only at hpu
  subst hpu
  rfl

theorem ValidateToken_never_ErrorInvalidToken (P : jwt.Primitives) (now : Time) (s : String) :
    (ValidateToken P now s).2 ≠ some GoError.ErrorInvalidToken := by
  unfold ValidateToken jwt.ParseWithClaims
  rcases hr : jwt.Parser.ParseWithClaims P false now s secretKey with ⟨token, err⟩
  cases err with
  | some e => simp
  | none =>
    obtain ⟨_, _, _, _, _, _, _, _, _, _, _, _, _, _, _, hvalid⟩ :=
      jwt.ParseWithClaims_ok_inv P now secretKey s token hr
    simp [hvalid]

theorem ValidateToken_ok_or_parser_error (P : jwt.Primitives) (now : Time) (s : String) :
    (∃ c, ValidateToken P now s = (some c, none))
    ∨ (∃ e, ValidateToken P now s = (none, some (GoError.jwt e))) := by
  unfold ValidateToken jwt.ParseWithClaims
  rcases hr : jwt.Parser.ParseWithClaims P false now s secretKey with ⟨token, err⟩
  cases err with
  | some e => exact Or.inr ⟨e, rfl⟩
  | none =>
    obtain ⟨_, _, _, _, _, _, _, _, _, _, _, _, _, _, _, hvalid⟩ :=
      jwt.ParseWithClaims_ok_inv P now secretKey s token hr
    exact Or.inl ⟨token.Claims, by simp [hvalid]⟩

theorem Validate_eq_none_iff (now : Time) (c : Claims) :
    jwt.Validate now c.toRegisteredClaims = none
      ↔ (NotExpired now c = true ∧ NotBeforeReached now c = true) := by
  cases hexp : c.ExpiresAt with
  | none =>
    cases hnbf : c.NotBefore with
    | none => simp [jwt.Validate, NotExpired, NotBeforeReached, hexp, hnbf]
    | some nbf =>
      by_cases hb : now < jwt.NumericDate.Time nbf
      · simp [jwt.Validate, NotExpired, NotBeforeReached, hexp, hnbf, time.Before, hb]
      · simp [jwt.Validate, NotExpired, NotBeforeReached, hexp, hnbf, time.Before, hb]
        exact not_lt.mp hb
  | some exp =>
    cases hnbf : c.NotBefore with
    | none =>
      by_cases ha : now < jwt.NumericDate.Time exp <;>
        simp [jwt.Validate, NotExpired, NotBeforeReached, hexp, hnbf, time.Before, ha]
    | some nbf =>
      by_cases ha : now < jwt.NumericDate.Time exp <;>
      by_cases hb : now < jwt.NumericDate.Time nbf <;>
        simp [jwt.Validate, NotExpired, NotBeforeReached, hexp, hnbf, time.Before, ha, hb]
      exact not_lt.mp hb

theorem toy_mac_ne (text : String) :
    toy.mac .HS256 [1, 2, 3] text ≠ toy.mac .HS256 secretKey text := by
  intro h
  have h2 := congrArg (fun l => l.tail.head?) h
  simp [toy.mac, secretKey] at h2

end auth

/-- C3, the code at the failing inputs: on the string `abc`, which has one segment, on a
token signed with the key `[1, 2, 3]` and on an access token of the service
validated after its expiration, `ValidateToken` fails with nil claims and returns
the error of the parser (malformed token, invalid signature, expired claims), not
`ErrorInvalidToken`; on no token string at any time does it return
`ErrorInvalidToken`, whose branch is never reached; and on every token string it
either succeeds or fails with nil claims and an error of the parser. -/
theorem C3_parser_error_passed_through :
    auth.ValidateToken toy.primitives 0 "abc"
        = (none, some (GoError.jwt
            (JwtErr.ErrTokenMalformed "token contains an invalid number of segments")))
    ∧ auth.ValidateToken toy.primitives 0
          (auth.signedWith toy.primitives .HS256 [1, 2, 3] (auth.expClaims 7 1900))
        = (none, some (GoError.jwt (JwtErr.ErrTokenSignatureInvalid "signature is invalid")))
    ∧ auth.ValidateToken toy.primitives 1000000000000
          (auth.GenerateAccessToken toy.primitives 0 7).1
        = (none, some (GoError.jwt (JwtErr.ErrTokenInvalidClaims true false)))
    ∧ (∀ (P : jwt.Primitives) (now : Time) (s : String),
        (auth.ValidateToken P now s).2 ≠ some GoError.ErrorInvalidToken)
    ∧ (∀ (P : jwt.Primitives) (now : Time) (s : String),
        (∃ c, auth.ValidateToken P now s = (some c, none))
        ∨ (∃ e, auth.ValidateToken P now s = (none, some (GoError.jwt e)))) := by
  refine ⟨auth.ValidateToken_wrong_segments _ _ _ (by decide), ?_, ?_,
    auth.ValidateToken_never_ErrorInvalidToken, auth.ValidateToken_ok_or_parser_error⟩
  · unfold auth.signedWith
    rw [auth.ValidateToken_Compact toy.primitives_lawful 0 (auth.headerOf .HS256) _ _ _
      (.hmac .HS256) rfl (jwt.GetSigningMethod_hmac _)]
    have hne := auth.toy_mac_ne (toy.primitives.EncodeSegment
      (toy.primitives.MarshalHeader (auth.headerOf .HS256)) ++ "."
      ++ toy.primitives.EncodeSegment (toy.primitives.MarshalClaims (auth.expClaims 7 1900)))
    have hv : jwt.SigningMethod.Verify toy.primitives (.hmac .HS256)
        (toy.primitives.EncodeSegment (toy.primitives.MarshalHeader (auth.headerOf .HS256))
          ++ "." ++ toy.primitives.EncodeSegment
            (toy.primitives.MarshalClaims (auth.expClaims 7 1900)))
        (toy.primitives.Mac .HS256 [1, 2, 3]
          (toy.primitives.EncodeSegment (toy.primitives.MarshalHeader (auth.headerOf .HS256))
            ++ "." ++ toy.primitives.EncodeSegment
              (toy.primitives.MarshalClaims (auth.expClaims 7 1900))))
        auth.secretKey = some "signature is invalid" := by
      unfold jwt.SigningMethod.Verify
      exact if_neg hne
    rw [hv]
  · rw [auth.GenerateAccessToken_eq]
    show auth.ValidateToken _ _ (auth.signed _ _ _) = _
    rw [auth.ValidateToken_signed_expClaims toy.primitives_lawful, if_neg (by decide)]

/-! ## Claims on what validation depends on -/

namespace auth

theorem IsCompact_Compact {P : jwt.Primitives} (hP : P.Lawful) (header : jwt.Header)
    (c : Claims) (sig : Bytes) :
    IsCompact P (jwt.Compact P header c sig) header c sig
      (P.EncodeSegment (P.MarshalHeader header) ++ "."
        ++ P.EncodeSegment (P.MarshalClaims c)) :=
  ⟨_, _, _, rfl, hP.encode_no_dot _, hP.encode_no_dot _, hP.encode_no_dot _, rfl,
    by simp [hP.decode_encode, hP.header_roundtrip],
    by simp [hP.decode_encode, hP.claims_roundtrip], hP.decode_encode sig⟩

theorem SignatureVerifies_signedWith {P : jwt.Primitives} (hP : P.Lawful) (h : jwt.HMAC)
    (key : Bytes) (c : Claims) : SignatureVerifies P key (signedWith P h key c) c :=
  ⟨headerOf h, _, _, h, IsCompact_Compact hP (headerOf h) c _, rfl, rfl⟩

theorem ValidateToken_eq_some_iff (P : jwt.Primitives) (now : Time) (s : String) (c : Claims) :
    ValidateToken P now s = (some c, none)
      ↔ (SignatureVerifies P secretKey s c
          ∧ NotExpired now c = true ∧ NotBeforeReached now c = true) := by
  constructor
  · intro hv
    unfold ValidateToken jwt.ParseWithClaims at hv
    rcases hr : jwt.Parser.ParseWithClaims P false now s secretKey with ⟨token, err⟩
    rw [hr] at hv
    cases err with
    | some e => simp at hv
    | none =>
      obtain ⟨p0, p1, p2, header, sig, alg, m, hs, h0, h1, halg, hm, h2, hver, hval, hvalid⟩ :=
        jwt.ParseWithClaims_ok_inv P now secretKey s token hr
      simp only [hvalid, Bool.not_true, Bool.false_eq_true, if_false, Prod.mk.injEq,
        Option.some.injEq, and_true] at hv
      subst hv
      obtain ⟨heq, hn0, hn1, hn2⟩ := jwt.eq_of_Split_three s p0 p1 p2 hs
      refine ⟨?_, (Validate_eq_none_iff now token.Claims).mp hval⟩
      cases m with
      | hmac h' =>
        have halg' := jwt.Alg_of_GetSigningMethod_hmac alg h' hm
        have hsig : sig = P.Mac h' secretKey (p0 ++ "." ++ p1) := by
          unfold jwt.SigningMethod.Verify at hver
          by_cases he : sig = P.Mac h' secretKey (p0 ++ "." ++ p1)
          · exact he
          · simp [he] at hver
        exact ⟨header, sig, p0 ++ "." ++ p1, h',
          ⟨p0, p1, p2, heq, hn0, hn1, hn2, rfl, h0, h1, h2⟩, by rw [halg, halg'], hsig⟩
      | asymmetric a => simp [jwt.SigningMethod.Verify] at hver
      | none => simp [jwt.SigningMethod.Verify] at hver
  · rintro ⟨⟨header, sig, text, m, ⟨p0, p1, p2, heq, hn0, hn1, hn2, htext, h0, h1, h2⟩, halg,
      hsig⟩, hexp, hnbf⟩
    have hs : jwt.Split s = [p0, p1, p2] := by
      rw [heq]
      exact jwt.Split_three p0 p1 p2 hn0 hn1 hn2
    have hval := (Validate_eq_none_iff now c).mpr ⟨hexp, hnbf⟩
    unfold ValidateToken jwt.ParseWithClaims
    rw [jwt.ParseWithClaims_segments P false now secretKey s p0 p1 p2 header c sig _
      (.hmac m) hs h0 h1 halg (jwt.GetSigningMethod_hmac m) h2]
    have hver : jwt.SigningMethod.Verify P (.hmac m) (p0 ++ "." ++ p1) sig secretKey
        = none := by
      unfold jwt.SigningMethod.Verify
      rw [hsig, htext]
      exact if_pos rfl
    simp [hver, hval]

end auth

/-- C4 as amended: for every token string and every current time, `ValidateToken`
succeeds with claims `c` if and only if the string is a compact token `p0.p1.p2`
carrying `c` whose header names an HMAC method and whose signature is the keyed
hash of `p0.p1` under the secret of the service, the expiration of `c` (when it has
one) has not elapsed and the not-before instant of `c` (when it has one) is
reached.  Issuer, subject, audience, issued-at and token ID play no part, and
neither does which of the three HMAC methods the header names: when encoding is
inverted by decoding, the token signed under the secret for any claims `c` with
any of the three methods is accepted exactly when the expiration and the
not-before instant of `c` allow it. -/
theorem C4_valid_iff (P : jwt.Primitives) (now : Time) (s : String) :
    (∀ c, auth.ValidateToken P now s = (some c, none)
      ↔ (auth.SignatureVerifies P auth.secretKey s c
          ∧ auth.NotExpired now c = true ∧ auth.NotBeforeReached now c = true))
    ∧ ((auth.ValidateToken P now s).2 = none
      ↔ ∃ c, auth.SignatureVerifies P auth.secretKey s c
          ∧ auth.NotExpired now c = true ∧ auth.NotBeforeReached now c = true)
    ∧ (P.Lawful → ∀ (m : jwt.HMAC) (c : auth.Claims),
        ((auth.ValidateToken P now (auth.signed P m c)).2 = none
          ↔ (auth.NotExpired now c = true ∧ auth.NotBeforeReached now c = true))
        ∧ (auth.NotExpired now c = true → auth.NotBeforeReached now c = true →
            auth.ValidateToken P now (auth.signed P m c) = (some c, none))) := by
  refine ⟨auth.ValidateToken_eq_some_iff P now s, ?_, ?_⟩
  · constructor
    · intro h
      rcases auth.ValidateToken_cases P now s with ⟨c, hc⟩ | ⟨e, he⟩
      · exact ⟨c, (auth.ValidateToken_eq_some_iff P now s c).mp hc⟩
      · rw [he] at h
        simp at h
    · rintro ⟨c, hc⟩
      rw [(auth.ValidateToken_eq_some_iff P now s c).mpr hc]
  · intro hP m c
    have hok : auth.NotExpired now c = true → auth.NotBeforeReached now c = true →
        auth.ValidateToken P now (auth.signed P m c) = (some c, none) := fun he hn =>
      (auth.ValidateToken_eq_some_iff P now _ c).mpr
        ⟨auth.SignatureVerifies_signedWith hP m auth.secretKey c, he, hn⟩
    refine ⟨⟨?_, ?_⟩, hok⟩
    · intro h
      rw [auth.ValidateToken_signed hP] at h
      cases hv : jwt.Validate now c.toRegisteredClaims with
      | none => exact (auth.Validate_eq_none_iff now c).mp hv
      | some e =>
        rw [hv] at h
        simp at h
    · rintro ⟨he, hn⟩
      rw [hok he hn]

/-- Witness for C4 as amended: at second 1000 a token signed with HS512 under the secret
of the service, with expiration at second 2000, not-before at second 500, an
issuer, a subject, an audience, an issued-at in the future and a token ID, is
accepted. -/
theorem C4_valid_iff_witness :
    toy.primitives.Lawful
    ∧ auth.NotExpired 1000000000000 toy.fullClaims = true
    ∧ auth.NotBeforeReached 1000000000000 toy.fullClaims = true
    ∧ auth.ValidateToken toy.primitives 1000000000000
          (auth.signed toy.primitives .HS512 toy.fullClaims)
        = (some toy.fullClaims, none) :=
  ⟨toy.primitives_lawful, by decide, by decide,
   ((C4_valid_iff toy.primitives 1000000000000 "").2.2 toy.primitives_lawful .HS512
      toy.fullClaims).2 (by decide) (by decide)⟩

/-- Counterexample to C4 as stated: at second 1000 a token signed under the secret of
the service with expiration at second 2000 and not-before at second 1500 has a
signature that verifies and an expiration that has not elapsed, yet `ValidateToken`
rejects it; the token that differs from it only in having no not-before claim is
accepted.  The not-before claim changes the outcome. -/
theorem C4_counterexample :
    auth.SignatureVerifies toy.primitives auth.secretKey
        (auth.signed toy.primitives .HS256 toy.notYetValid) toy.notYetValid
    ∧ auth.NotExpired 1000000000000 toy.notYetValid = true
    ∧ auth.ValidateToken toy.primitives 1000000000000
          (auth.signed toy.primitives .HS256 toy.notYetValid)
        = (none, some (GoError.jwt (JwtErr.ErrTokenInvalidClaims false true)))
    ∧ auth.ValidateToken toy.primitives 1000000000000
          (auth.signed toy.primitives .HS256 { toy.notYetValid with NotBefore := none })
        = (some { toy.notYetValid with NotBefore := none }, none) := by
  refine ⟨auth.SignatureVerifies_signedWith toy.primitives_lawful _ _ _, by decide, ?_, ?_⟩
  · rw [auth.ValidateToken_signed toy.primitives_lawful]
    have hv : jwt.Validate 1000000000000 toy.notYetValid.toRegisteredClaims
        = some (JwtErr.ErrTokenInvalidClaims false true) := by decide
    rw [hv]
  · rw [auth.ValidateToken_signed toy.primitives_lawful]
    have hv : jwt.Validate 1000000000000
        ({ toy.notYetValid with NotBefore := none } : auth.Claims).toRegisteredClaims
        = none := by decide
    rw [hv]

/-! ## Claims on the handlers -/

/-- C8, the code at the failing input: on a database that holds one user, `Login` with
an unknown email answers status 500 with the message of `ErrorUserNotFound`, while
`Login` with the known email and a wrong password answers status 401 with the
wrong-credentials body; the two responses differ. -/
theorem C8_login_reveals_unknown_email :
    toy.handler.Login toy.primitives toy.bcryptPrimitives 0 0
        { Email := "nobody@b.com", Password := "secret1" } none
      = ⟨500, .H [("error", "Пользователь не найден")]⟩
    ∧ toy.handler.Login toy.primitives toy.bcryptPrimitives 0 0
        { Email := "a@b.com", Password := "wrong" } none
      = ⟨401, .H [("details", "Неверный email или пароль"), ("error", "Ошибка аутентификации")]⟩
    ∧ toy.handler.Login toy.primitives toy.bcryptPrimitives 0 0
        { Email := "nobody@b.com", Password := "secret1" } none
      ≠ toy.handler.Login toy.primitives toy.bcryptPrimitives 0 0
        { Email := "a@b.com", Password := "wrong" } none := by
  refine ⟨by decide, by decide, by decide⟩

namespace repository

theorem GetByID_of_absent (r : userRepository) (id : Int) (hf : r.db.fault = none)
    (h : ∀ u ∈ r.db.users, u.ID ≠ id) :
    r.GetByID id = ({}, some GoError.ErrorUserNotFound) := by
  have hfind : r.db.users.find? (fun u => decide (u.ID = id)) = none := by
    rw [List.find?_eq_none]
    intro u hu
    simpa using h u hu
  simp [userRepository.GetByID, sql.DB.QueryRowByID, hf, hfind, GoError.Is]

theorem GetByID_of_present (r : userRepository) (id : Int) (hf : r.db.fault = none)
    (h : ∃ u ∈ r.db.users, u.ID = id) :
    ∃ u, r.GetByID id = (u, none) ∧ u.ID = id := by
  cases hfind : r.db.users.find? (fun u => decide (u.ID = id)) with
  | none =>
    rw [List.find?_eq_none] at hfind
    obtain ⟨u, hu, hid⟩ := h
    exact absurd (by simpa using hid) (hfind u hu)
  | some u =>
    have hid : u.ID = id := by simpa using List.find?_some hfind
    exact ⟨u, by simp [userRepository.GetByID, sql.DB.QueryRowByID, hf, hfind], hid⟩

end repository

/-- C9: for every token on which `ValidateToken` succeeds (validly signed and
unexpired) and whose embedded user ID belongs to no row of the user store, the
lookup of `RefreshToken` fails with `ErrorUserNotFound` and the handler answers
status 401 with the message of that error; the response carries no access or refresh
token. -/
theorem C9_refresh_unknown_user (P : jwt.Primitives) (tValidate tAccess tRefresh : Time)
    (h : handlers.UserHandler) (req : handlers.RefreshRequest) (c : auth.Claims)
    (hval : auth.ValidateToken P tValidate req.RefreshToken = (some c, none))
    (hfault : h.userUseCase.repo.db.fault = none)
    (habsent : ∀ u ∈ h.userUseCase.repo.db.users, u.ID ≠ c.UserID) :
    (h.userUseCase.GetUserByID c.UserID).2 = some GoError.ErrorUserNotFound
    ∧ h.RefreshToken P tValidate tAccess tRefresh req none
        = ⟨http.StatusUnauthorized, .H [("error", GoError.ErrorUserNotFound.Error)]⟩ := by
  have hg := repository.GetByID_of_absent h.userUseCase.repo c.UserID hfault habsent
  refine ⟨by simp [usecase.UserUseCase.GetUserByID, hg], ?_⟩
  simp [handlers.UserHandler.RefreshToken, hval, usecase.UserUseCase.GetUserByID, hg,
    GoError.Error]

/-- Witness for C9: a refresh token issued at second 1000 for user 8, who is not in
the database, presented one minute later. -/
theorem C9_refresh_unknown_user_witness :
    (toy.handler.userUseCase.GetUserByID 8).2 = some GoError.ErrorUserNotFound
    ∧ toy.handler.RefreshToken toy.primitives 1060000000000 1060000000001 1060000000002
        ⟨(auth.GenerateRefreshToken toy.primitives 1000000000000 8).1⟩ none
        = ⟨http.StatusUnauthorized, .H [("error", GoError.ErrorUserNotFound.Error)]⟩ :=
  C9_refresh_unknown_user toy.primitives 1060000000000 1060000000001 1060000000002
    toy.handler ⟨(auth.GenerateRefreshToken toy.primitives 1000000000000 8).1⟩
    (auth.expClaims 8 (auth.refreshExp 1000000000000))
    (by
      rw [auth.GenerateRefreshToken_eq]
      show auth.ValidateToken _ _ (auth.signed _ _ _) = _
      rw [auth.ValidateToken_signed_expClaims toy.primitives_lawful, if_pos (by decide)])
    rfl (by decide)

/-- C10: for every token on which `ValidateToken` succeeds (valid and unexpired) with
embedded user ID `uid` such that a user with ID `uid` is in the store,
`RefreshToken` answers status 200 with the token of `GenerateAccessToken(uid)` as
new access token and the token of `GenerateRefreshToken(uid)` as new refresh
token.  The new access token validates at any time `tv` before its expiration, its
issuance time plus 15 minutes in Unix seconds, which is `ExpiresIn`; the new
refresh token validates at any time `tvr` before its own expiration, its issuance
time plus 7 days in Unix seconds; both to claims with `UserID = uid`. -/
theorem C10_refresh_success {P : jwt.Primitives} (hP : P.Lawful)
    (tValidate tAccess tRefresh tv tvr : Time) (h : handlers.UserHandler)
    (req : handlers.RefreshRequest) (c : auth.Claims)
    (hval : auth.ValidateToken P tValidate req.RefreshToken = (some c, none))
    (hfault : h.userUseCase.repo.db.fault = none)
    (hpresent : ∃ u ∈ h.userUseCase.repo.db.users, u.ID = c.UserID)
    (htv : tv < jwt.NumericDate.Time (time.Unix (time.Add tAccess (15 * time.Minute))))
    (htvr : tvr < jwt.NumericDate.Time (time.Unix (time.Add tRefresh (7 * 24 * time.Hour)))) :
    ∃ accessToken refreshToken ca cr,
      h.RefreshToken P tValidate tAccess tRefresh req none
        = ⟨http.StatusOK, .Tokens
            { AccessToken := accessToken, RefreshToken := refreshToken,
              ExpiresIn := time.Unix (time.Add tAccess (15 * time.Minute)) }⟩
      ∧ accessToken = (auth.GenerateAccessToken P tAccess c.UserID).1
      ∧ refreshToken = (auth.GenerateRefreshToken P tRefresh c.UserID).1
      ∧ auth.ValidateToken P tv accessToken = (some ca, none)
      ∧ ca.UserID = c.UserID
      ∧ ca.ExpiresAt = some (time.Unix (time.Add tAccess (15 * time.Minute)))
      ∧ auth.ValidateToken P tvr refreshToken = (some cr, none)
      ∧ cr.UserID = c.UserID
      ∧ cr.ExpiresAt = some (time.Unix (time.Add tRefresh (7 * 24 * time.Hour))) := by
  have htv1 : tv < jwt.NumericDate.Time (auth.accessExp tAccess) := htv
  have htv2 : tvr < jwt.NumericDate.Time (auth.refreshExp tRefresh) := htvr
  obtain ⟨u, hg, _⟩ := repository.GetByID_of_present h.userUseCase.repo c.UserID hfault hpresent
  refine ⟨auth.signed P .HS256 (auth.expClaims c.UserID (auth.accessExp tAccess)),
    auth.signed P .HS256 (auth.expClaims c.UserID (auth.refreshExp tRefresh)),
    auth.expClaims c.UserID (auth.accessExp tAccess),
    auth.expClaims c.UserID (auth.refreshExp tRefresh), ?_, ?_, ?_, ?_, rfl, rfl, ?_, rfl,
    rfl⟩
  · unfold handlers.UserHandler.RefreshToken
    simp only [hval, usecase.UserUseCase.GetUserByID, hg, auth.GenerateAccessToken_eq,
      auth.GenerateRefreshToken_eq]
    rfl
  · rw [auth.GenerateAccessToken_eq]
  · rw [auth.GenerateRefreshToken_eq]
  · rw [auth.ValidateToken_signed_expClaims hP, if_pos htv1]
  · rw [auth.ValidateToken_signed_expClaims hP, if_pos htv2]

/-- Witness for C10: a refresh token issued at second 1000 for the stored user 7,
presented one minute later; the new access token is validated one more minute
later and the new refresh token six days later. -/
theorem C10_refresh_success_witness :
    ∃ accessToken refreshToken ca cr,
      toy.handler.RefreshToken toy.primitives 1060000000000 1060000000001 1060000000002
          ⟨(auth.GenerateRefreshToken toy.primitives 1000000000000 7).1⟩ none
        = ⟨http.StatusOK, .Tokens
            { AccessToken := accessToken, RefreshToken := refreshToken,
              ExpiresIn := time.Unix (time.Add 1060000000001 (15 * time.Minute)) }⟩
      ∧ accessToken = (auth.GenerateAccessToken toy.primitives 1060000000001 7).1
      ∧ refreshToken = (auth.GenerateRefreshToken toy.primitives 1060000000002 7).1
      ∧ auth.ValidateToken toy.primitives 1120000000000 accessToken = (some ca, none)
      ∧ ca.UserID = 7
      ∧ ca.ExpiresAt = some (time.Unix (time.Add 1060000000001 (15 * time.Minute)))
      ∧ auth.ValidateToken toy.primitives 519400000000000 refreshToken = (some cr, none)
      ∧ cr.UserID = 7
      ∧ cr.ExpiresAt = some (time.Unix (time.Add 1060000000002 (7 * 24 * time.Hour))) :=
  C10_refresh_success toy.primitives_lawful 1060000000000 1060000000001 1060000000002
    1120000000000 519400000000000 toy.handler
    ⟨(auth.GenerateRefreshToken toy.primitives 1000000000000 7).1⟩
    (auth.expClaims 7 (auth.refreshExp 1000000000000))
    (by
      rw [auth.GenerateRefreshToken_eq]
      show auth.ValidateToken _ _ (auth.signed _ _ _) = _
      rw [auth.ValidateToken_signed_expClaims toy.primitives_lawful, if_pos (by decide)])
    rfl ⟨toy.alice, by decide, by decide⟩ (by decide) (by decide)

/-! ## Claims on password hashing -/

namespace toy

theorem bcryptPrimitives_lawful : bcryptPrimitives.Lawful where
  generate_ok := by
    intro salt password h
    simp [bcryptPrimitives, not_lt.mpr h]
  generate_too_long := by
    intro salt password cost h
    simp [bcryptPrimitives, h]
  compare_generate := by
    intro salt password cost hashed h
    simp only [bcryptPrimitives] at h ⊢
    by_cases hl : 72 < password.utf8ByteSize
    · simp [hl] at h
    · simp only [hl, if_false, Prod.mk.injEq, and_true] at h
      simp [← h, not_lt.mp hl]
  compare_is_hash := by
    intro hashed password h
    simp only [bcryptPrimitives] at h
    by_cases hc : password.utf8ByteSize ≤ 72 ∧ hashed = "$2a$" ++ password
    · refine ⟨[], password, bcrypt.DefaultCost, ?_⟩
      simp [bcryptPrimitives, not_lt.mpr hc.1, hc.2]
    · simp [hc] at h

end toy

/-- C11 as amended: for every plaintext `p`, if `HashPassword` succeeds on a user whose
`Password` is `p` then on the resulting user `CheckPassword(p)` returns nil and
`VerifyPassword(p)` returns true; `HashPassword` succeeds for every plaintext of at
most 72 bytes, and for a longer one it fails with `ErrPasswordTooLong` and leaves
the user as it was. -/
theorem C11_hash_then_verify {B : bcrypt.Primitives} (hB : B.Lawful) (salt : Bytes)
    (u : models.User) :
    ((u.HashPassword B salt).2 = none →
        (u.HashPassword B salt).1.CheckPassword B u.Password = none
        ∧ (u.HashPassword B salt).1.VerifyPassword B u.Password = true)
    ∧ (u.Password.utf8ByteSize ≤ 72 → (u.HashPassword B salt).2 = none)
    ∧ (72 < u.Password.utf8ByteSize →
        u.HashPassword B salt = (u, some bcrypt.ErrPasswordTooLong)) := by
  unfold models.User.HashPassword
  rcases hg : B.GenerateFromPassword salt u.Password bcrypt.DefaultCost with ⟨hashed, err⟩
  refine ⟨?_, ?_, ?_⟩
  · cases err with
    | some e => simp
    | none =>
      intro _
      have hc := hB.compare_generate salt u.Password bcrypt.DefaultCost hashed hg
      simp [models.User.CheckPassword, models.User.VerifyPassword, hc]
  · intro hle
    have := hB.generate_ok salt u.Password hle
    rw [hg] at this
    simp only at this
    subst this
    rfl
  · intro hlt
    have := hB.generate_too_long salt u.Password bcrypt.DefaultCost hlt
    rw [hg] at this
    simp only at this
    subst this
    rfl

/-- Witness for C11 as amended: the plaintext `secret1` is hashed and verifies; a
plaintext of 73 bytes is refused. -/
theorem C11_hash_then_verify_witness :
    (models.User.HashPassword toy.bcryptPrimitives [] { Password := "secret1" }).2 = none
    ∧ (models.User.HashPassword toy.bcryptPrimitives [] { Password := "secret1" }).1.CheckPassword
        toy.bcryptPrimitives "secret1" = none
    ∧ (models.User.HashPassword toy.bcryptPrimitives [] { Password := "secret1" }).1.VerifyPassword
        toy.bcryptPrimitives "secret1" = true
    ∧ models.User.HashPassword toy.bcryptPrimitives [] { Password := toy.longPassword }
        = ({ Password := toy.longPassword }, some bcrypt.ErrPasswordTooLong) :=
  ⟨(C11_hash_then_verify toy.bcryptPrimitives_lawful [] { Password := "secret1" }).2.1
      (by decide),
   ((C11_hash_then_verify toy.bcryptPrimitives_lawful [] { Password := "secret1" }).1
      (by decide)).1,
   ((C11_hash_then_verify toy.bcryptPrimitives_lawful [] { Password := "secret1" }).1
      (by decide)).2,
   (C11_hash_then_verify toy.bcryptPrimitives_lawful [] { Password := toy.longPassword }).2.2
      (by decide)⟩

/-- Counterexample to C11 as stated: on a plaintext of 73 bytes `HashPassword` does not
succeed; it returns `ErrPasswordTooLong`. -/
theorem C11_counterexample :
    toy.longPassword.utf8ByteSize = 73
    ∧ (models.User.HashPassword toy.bcryptPrimitives [] { Password := toy.longPassword }).2
        = some bcrypt.ErrPasswordTooLong
    ∧ (models.User.HashPassword toy.bcryptPrimitives [] { Password := toy.longPassword }).2
        ≠ none := by
  refine ⟨by decide, by decide, by decide⟩

/-! ## Claims on the invariant of the store -/

namespace sql

theorem StoresHashes_QueryRowInsert (B : bcrypt.Primitives) (db : DB)
    (name email password : String) (hinv : db.StoresHashes B)
    (hp : bcrypt.IsHash B password) :
    (db.QueryRowInsert name email password).1.StoresHashes B := by
  unfold DB.QueryRowInsert
  cases hf : db.fault with
  | some msg => exact hinv
  | none =>
    simp only []
    split
    · exact hinv
    · intro u hu
      simp only [List.mem_append, List.mem_singleton] at hu
      rcases hu with hu | hu
      · exact hinv u hu
      · subst hu
        exact hp

theorem mem_QueryRowUpdate (db : DB) (name email password : String) (id : Int)
    (u : models.User) (hu : u ∈ (db.QueryRowUpdate name email password id).1.users) :
    u ∈ db.users ∨ u.Password = password := by
  unfold DB.QueryRowUpdate at hu
  cases hf : db.fault with
  | some msg =>
    simp only [hf] at hu
    exact Or.inl hu
  | none =>
    simp only [hf] at hu
    cases hfind : db.users.find? (fun u => decide (u.ID = id)) with
    | none =>
      simp only [hfind] at hu
      exact Or.inl hu
    | some old =>
      simp only [hfind] at hu
      split at hu
      · exact Or.inl hu
      · simp only [List.mem_map] at hu
        obtain ⟨v, hv, hvu⟩ := hu
        by_cases hid : v.ID = id
        · simp only [hid, if_true] at hvu
          subst hvu
          exact Or.inr rfl
        · simp only [hid, if_false] at hvu
          subst hvu
          exact Or.inl hv

theorem StoresHashes_ExecDelete (B : bcrypt.Primitives) (db : DB) (id : Int)
    (hinv : db.StoresHashes B) : (db.ExecDelete id).1.StoresHashes B := by
  unfold DB.ExecDelete
  cases hf : db.fault with
  | some msg => exact hinv
  | none =>
    intro u hu
    simp only [List.mem_filter] at hu
    exact hinv u hu.1

end sql

namespace usecase

theorem StoresHashes_CreateUser (B : bcrypt.Primitives) (salt : Bytes) (uc : UserUseCase)
    (user : models.User) (hinv : uc.repo.db.StoresHashes B) :
    (uc.CreateUser B salt user).1.repo.db.StoresHashes B := by
  unfold UserUseCase.CreateUser
  by_cases hempty : user.Password = ""
  · simpa [hempty] using hinv
  · simp only [hempty, if_false]
    unfold models.User.HashPassword
    rcases hg : B.GenerateFromPassword salt user.Password bcrypt.DefaultCost with ⟨hashed, err⟩
    cases err with
    | some e => exact hinv
    | none =>
      simp only [repository.userRepository.Create]
      rcases hq : uc.repo.db.QueryRowInsert user.Name user.Email hashed with ⟨db, row, qerr⟩
      have hs := sql.StoresHashes_QueryRowInsert B uc.repo.db user.Name user.Email hashed hinv
        ⟨salt, user.Password, bcrypt.DefaultCost, hg⟩
      rw [hq] at hs
      cases qerr <;> exact hs

theorem mem_UpdateUser (B : bcrypt.Primitives) (salt : Bytes) (uc : UserUseCase) (id : Int)
    (user u : models.User) (hu : u ∈ (uc.UpdateUser B salt id user).1.repo.db.users) :
    u ∈ uc.repo.db.users ∨ u.Password = user.Password := by
  unfold UserUseCase.UpdateUser repository.userRepository.Update at hu
  rcases hq : uc.repo.db.QueryRowUpdate user.Name user.Email user.Password id
    with ⟨db, row, qerr⟩
  have hm := sql.mem_QueryRowUpdate uc.repo.db user.Name user.Email user.Password id u
  rw [hq] at hm hu
  apply hm
  cases qerr with
  | some e =>
    simp only [] at hu
    split at hu <;> exact hu
  | none =>
    simp only [] at hu
    split at hu <;> exact hu

theorem StoresHashes_UpdateUser (B : bcrypt.Primitives) (salt : Bytes) (uc : UserUseCase)
    (id : Int) (user : models.User) (hinv : uc.repo.db.StoresHashes B)
    (hp : bcrypt.IsHash B user.Password) :
    (uc.UpdateUser B salt id user).1.repo.db.StoresHashes B := by
  intro u hu
  rcases mem_UpdateUser B salt uc id user u hu with h | h
  · exact hinv u h
  · rw [h]
    exact hp

theorem StoresHashes_DeleteUser (B : bcrypt.Primitives) (uc : UserUseCase) (id : Int)
    (hinv : uc.repo.db.StoresHashes B) : (uc.DeleteUser id).1.repo.db.StoresHashes B := by
  unfold UserUseCase.DeleteUser repository.userRepository.Delete
  have hs := sql.StoresHashes_ExecDelete B uc.repo.db id hinv
  rcases hq : uc.repo.db.ExecDelete id with ⟨db, result, err⟩
  rw [hq] at hs
  cases err with
  | some e => exact hs
  | none =>
    simp only []
    rcases result.RowsAffected with ⟨n, rerr⟩
    cases rerr with
    | some e => exact hs
    | none =>
      simp only []
      split <;> exact hs

end usecase

namespace handlers

theorem StoresHashes_UpdatePassword (B : bcrypt.Primitives) (salt saltRow : Bytes)
    (h : UserHandler) (id : Int) (atoiErr : Option GoError) (password : String)
    (bindErr : Option GoError) (hinv : h.userUseCase.repo.db.StoresHashes B) :
    (h.UpdatePassword B salt saltRow id atoiErr password bindErr).1.userUseCase.repo.db.StoresHashes
      B := by
  unfold UserHandler.UpdatePassword
  cases atoiErr with
  | some e => exact hinv
  | none =>
    cases bindErr with
    | some e => exact hinv
    | none =>
      simp only []
      rcases hg : h.userUseCase.GetUserByID id with ⟨user, gerr⟩
      cases gerr with
      | some e => exact hinv
      | none =>
        simp only [models.User.HashPassword]
        rcases hgen : B.GenerateFromPassword salt password bcrypt.DefaultCost
          with ⟨hashed, herr⟩
        cases herr with
        | some e => exact hinv
        | none =>
          simp only []
          have hs := usecase.StoresHashes_UpdateUser B saltRow h.userUseCase id
            { user with Password := hashed } hinv ⟨salt, password, bcrypt.DefaultCost, hgen⟩
          rcases hu : h.userUseCase.UpdateUser B saltRow id { user with Password := hashed }
            with ⟨uc, updated, uerr⟩
          rw [hu] at hs
          cases uerr <;> exact hs

end handlers

namespace toy

theorem db_StoresHashes : db.StoresHashes bcryptPrimitives := by
  intro u hu
  have : u = alice := by simpa [db] using hu
  subst this
  exact ⟨[], "secret1", bcrypt.DefaultCost, by decide⟩

theorem plain_not_IsHash : ¬ bcrypt.IsHash bcryptPrimitives "plain" := by
  rintro ⟨salt, password, cost, h⟩
  simp only [bcryptPrimitives] at h
  split at h
  · simp at h
  · simp only [Prod.mk.injEq, and_true] at h
    have h2 := congrArg (fun s => s.data.head?) h
    simp at h2

end toy

/-- C12 as amended: on a store in which every password field holds a hash, `CreateUser`
(for every input user) and `DeleteUser` leave a store with the same property;
`UpdateUser(id, user)` writes the password field of `user` as it is given, so every
password field afterwards holds a hash or that value, and the property is kept when
that value is a hash, as it is when `UpdatePassword` calls it after hashing the new
password. -/
theorem C12_store_keeps_hashes (B : bcrypt.Primitives) (salt saltRow : Bytes)
    (uc : usecase.UserUseCase) (id : Int) (user : models.User) (atoiErr : Option GoError)
    (password : String) (bindErr : Option GoError)
    (hinv : uc.repo.db.StoresHashes B) :
    (uc.CreateUser B salt user).1.repo.db.StoresHashes B
    ∧ (uc.DeleteUser id).1.repo.db.StoresHashes B
    ∧ (∀ u ∈ (uc.UpdateUser B salt id user).1.repo.db.users,
        bcrypt.IsHash B u.Password ∨ u.Password = user.Password)
    ∧ (bcrypt.IsHash B user.Password → (uc.UpdateUser B salt id user).1.repo.db.StoresHashes B)
    ∧ (handlers.UserHandler.UpdatePassword B salt saltRow ⟨uc⟩ id atoiErr password
        bindErr).1.userUseCase.repo.db.StoresHashes B := by
  refine ⟨usecase.StoresHashes_CreateUser B salt uc user hinv,
    usecase.StoresHashes_DeleteUser B uc id hinv, ?_,
    usecase.StoresHashes_UpdateUser B salt uc id user hinv,
    handlers.StoresHashes_UpdatePassword B salt saltRow ⟨uc⟩ id atoiErr password bindErr hinv⟩
  intro u hu
  rcases usecase.mem_UpdateUser B salt uc id user u hu with h | h
  · exact Or.inl (hinv u h)
  · exact Or.inr h

/-- Witness for C12 as amended: on the database with one user, a user is created, user
7 is deleted, user 7 is updated with a hashed password, and the password of user 7 is
changed through the handler. -/
theorem C12_store_keeps_hashes_witness :
    (toy.uc.CreateUser toy.bcryptPrimitives []
        { Name := "Bob", Email := "bob@b.com", Password := "hunter2" }).1.repo.db.StoresHashes
      toy.bcryptPrimitives
    ∧ (toy.uc.DeleteUser 7).1.repo.db.StoresHashes toy.bcryptPrimitives
    ∧ (toy.uc.UpdateUser toy.bcryptPrimitives [] 7
        { Name := "Alice", Email := "a@b.com", Password := "$2a$new" }).1.repo.db.StoresHashes
      toy.bcryptPrimitives
    ∧ (handlers.UserHandler.UpdatePassword toy.bcryptPrimitives [] [] ⟨toy.uc⟩ 7 none "new"
        none).1.userUseCase.repo.db.StoresHashes toy.bcryptPrimitives :=
  ⟨(C12_store_keeps_hashes toy.bcryptPrimitives [] [] toy.uc 7
      { Name := "Bob", Email := "bob@b.com", Password := "hunter2" } none "new" none
      toy.db_StoresHashes).1,
   (C12_store_keeps_hashes toy.bcryptPrimitives [] [] toy.uc 7
      { Name := "Bob", Email := "bob@b.com", Password := "hunter2" } none "new" none
      toy.db_StoresHashes).2.1,
   (C12_store_keeps_hashes toy.bcryptPrimitives [] [] toy.uc 7
      { Name := "Alice", Email := "a@b.com", Password := "$2a$new" } none "new" none
      toy.db_StoresHashes).2.2.2.1 ⟨[], "new", bcrypt.DefaultCost, by decide⟩,
   (C12_store_keeps_hashes toy.bcryptPrimitives [] [] toy.uc 7
      { Name := "Bob", Email := "bob@b.com", Password := "hunter2" } none "new" none
      toy.db_StoresHashes).2.2.2.2⟩

/-- Counterexample to C12 as stated: the database with one user keeps a hash in every
password field; after `UpdateUser(7, user)` with the password `plain` the row of
user 7 holds `plain`, which is not a hash. -/
theorem C12_counterexample :
    toy.uc.repo.db.StoresHashes toy.bcryptPrimitives
    ∧ (toy.uc.UpdateUser toy.bcryptPrimitives [] 7
        { Name := "Alice", Email := "a@b.com", Password := "plain" }).1.repo.db.users
        = [{ toy.alice with Password := "plain" }]
    ∧ ¬ (toy.uc.UpdateUser toy.bcryptPrimitives [] 7
        { Name := "Alice", Email := "a@b.com", Password := "plain" }).1.repo.db.StoresHashes
          toy.bcryptPrimitives := by
  have hu : (toy.uc.UpdateUser toy.bcryptPrimitives [] 7
        { Name := "Alice", Email := "a@b.com", Password := "plain" }).1.repo.db.users
        = [{ toy.alice with Password := "plain" }] := by decide
  refine ⟨toy.db_StoresHashes, hu, ?_⟩
  intro hinv
  exact toy.plain_not_IsHash (hinv { toy.alice with Password := "plain" } (by rw [hu]; simp))

/-! ## Claims on the middleware, the refresh flow and the RPC server -/

namespace strings

theorem HasPrefix_append (pre s : String) : HasPrefix (pre ++ s) pre = true := by
  unfold HasPrefix
  rw [List.isPrefixOf_iff_prefix]
  simp [String.toList]

theorem TrimPrefix_append (pre s : String) : TrimPrefix (pre ++ s) pre = s := by
  unfold TrimPrefix
  rw [HasPrefix_append, if_pos rfl]
  simp [String.toList]

theorem TrimPrefix_of_not_HasPrefix (s pre : String) (h : HasPrefix s pre = false) :
    TrimPrefix s pre = s := by
  unfold TrimPrefix
  simp [h]

end strings

namespace auth

theorem ValidateToken_empty (P : jwt.Primitives) (now : Time) :
    ValidateToken P now ""
      = (none, some (GoError.jwt
          (JwtErr.ErrTokenMalformed "token contains an invalid number of segments"))) :=
  ValidateToken_wrong_segments P now "" (by decide)

theorem now_lt_refreshExp (now : Int) : now < jwt.NumericDate.Time (refreshExp now) := by
  rw [refreshExp_eq]
  unfold jwt.NumericDate.Time time.Unix
  show now < (now / 1000000000 + 604800) * 1000000000
  omega

end auth

namespace handlers

theorem AuthMiddleware_of_valid (P : jwt.Primitives) (now : Time) (authHeader : String)
    (c : auth.Claims) (hne : authHeader ≠ "")
    (hval : auth.ValidateToken P now (strings.TrimPrefix authHeader "Bearer ") = (some c, none)) :
    AuthMiddleware P now authHeader = .Next c.UserID := by
  unfold AuthMiddleware
  simp [hne, hval]

theorem AuthMiddleware_of_invalid (P : jwt.Primitives) (now : Time) (authHeader : String)
    (hne : authHeader ≠ "")
    (hval : (auth.ValidateToken P now (strings.TrimPrefix authHeader "Bearer ")).2 ≠ none) :
    AuthMiddleware P now authHeader
      = .Abort http.StatusUnauthorized (.H [("error", "Невалидный токен")]) := by
  unfold AuthMiddleware
  rcases hr : auth.ValidateToken P now (strings.TrimPrefix authHeader "Bearer ") with ⟨c, e⟩
  rw [hr] at hval
  cases e with
  | none => exact absurd rfl hval
  | some e => simp [hne, hr]

theorem Bearer_append_ne_empty (tok : String) : "Bearer " ++ tok ≠ "" := by
  intro h
  have h2 := congrArg (fun s => s.data.length) h
  simp at h2

theorem RefreshToken_of_valid (P : jwt.Primitives) (tValidate tAccess tRefresh : Time)
    (h : UserHandler) (req : RefreshRequest) (c : auth.Claims)
    (hval : auth.ValidateToken P tValidate req.RefreshToken = (some c, none))
    (hfault : h.userUseCase.repo.db.fault = none)
    (hpresent : ∃ u ∈ h.userUseCase.repo.db.users, u.ID = c.UserID) :
    h.RefreshToken P tValidate tAccess tRefresh req none
      = ⟨http.StatusOK, .Tokens
          { AccessToken := auth.signed P .HS256 (auth.expClaims c.UserID (auth.accessExp tAccess)),
            RefreshToken :=
              auth.signed P .HS256 (auth.expClaims c.UserID (auth.refreshExp tRefresh)),
            ExpiresIn := auth.accessExp tAccess }⟩ := by
  obtain ⟨u, hg, _⟩ := repository.GetByID_of_present h.userUseCase.repo c.UserID hfault hpresent
  unfold UserHandler.RefreshToken
  simp only [hval, usecase.UserUseCase.GetUserByID, hg, auth.GenerateAccessToken_eq,
    auth.GenerateRefreshToken_eq]

end handlers

/-- C13: tokens are not told apart by kind.  A token from `GenerateRefreshToken(uid)`
is accepted by `ValidateToken`, and as a bearer token by `AuthMiddleware`, at every
time before its expiration 604800 seconds after issuance, with `UserID = uid`; a
token from `GenerateAccessToken(uid)` presented to `RefreshToken` before its own
expiration, for a user that is in the store, gets status 200 with a new access
token and a new refresh token that both validate to `UserID = uid`. -/
theorem C13_tokens_interchangeable {P : jwt.Primitives} (hP : P.Lawful)
    (now tv tAccess tRefresh : Time) (uid : Int) (h : handlers.UserHandler)
    (hfault : h.userUseCase.repo.db.fault = none)
    (hpresent : ∃ u ∈ h.userUseCase.repo.db.users, u.ID = uid) :
    (tv < jwt.NumericDate.Time (time.Unix now + 604800) →
      (∃ c, auth.ValidateToken P tv (auth.GenerateRefreshToken P now uid).1 = (some c, none)
          ∧ c.UserID = uid)
      ∧ handlers.AuthMiddleware P tv ("Bearer " ++ (auth.GenerateRefreshToken P now uid).1)
          = .Next uid)
    ∧ (tv < jwt.NumericDate.Time (time.Unix now + 900) →
      ∃ accessToken refreshToken ca cr,
        h.RefreshToken P tv tAccess tRefresh ⟨(auth.GenerateAccessToken P now uid).1⟩ none
          = ⟨http.StatusOK, .Tokens
              { AccessToken := accessToken, RefreshToken := refreshToken,
                ExpiresIn := time.Unix (time.Add tAccess (15 * time.Minute)) }⟩
        ∧ auth.ValidateToken P tAccess accessToken = (some ca, none)
        ∧ ca.UserID = uid
        ∧ auth.ValidateToken P tRefresh refreshToken = (some cr, none)
        ∧ cr.UserID = uid) := by
  constructor
  · intro htv
    rw [← auth.refreshExp_eq] at htv
    have hval : auth.ValidateToken P tv (auth.GenerateRefreshToken P now uid).1
        = (some (auth.expClaims uid (auth.refreshExp now)), none) := by
      rw [auth.GenerateRefreshToken_eq]
      show auth.ValidateToken P tv (auth.signed P .HS256 _) = _
      rw [auth.ValidateToken_signed_expClaims hP, if_pos htv]
    refine ⟨⟨_, hval, rfl⟩, ?_⟩
    exact handlers.AuthMiddleware_of_valid P tv _ (auth.expClaims uid (auth.refreshExp now))
      (handlers.Bearer_append_ne_empty _) (by rw [strings.TrimPrefix_append]; exact hval)
  · intro htv
    rw [← auth.accessExp_eq] at htv
    have hval : auth.ValidateToken P tv (auth.GenerateAccessToken P now uid).1
        = (some (auth.expClaims uid (auth.accessExp now)), none) := by
      rw [auth.GenerateAccessToken_eq]
      show auth.ValidateToken P tv (auth.signed P .HS256 _) = _
      rw [auth.ValidateToken_signed_expClaims hP, if_pos htv]
    refine ⟨_, _, auth.expClaims uid (auth.accessExp tAccess),
      auth.expClaims uid (auth.refreshExp tRefresh),
      handlers.RefreshToken_of_valid P tv tAccess tRefresh h
        ⟨(auth.GenerateAccessToken P now uid).1⟩ _ hval hfault hpresent, ?_, rfl, ?_, rfl⟩
    · rw [auth.ValidateToken_signed_expClaims hP, if_pos (auth.now_lt_accessExp tAccess)]
      rfl
    · rw [auth.ValidateToken_signed_expClaims hP, if_pos (auth.now_lt_refreshExp tRefresh)]
      rfl

/-- Witness for C13: tokens for the stored user 7 issued at second 1000; the refresh
token is used as a bearer token six days later and the access token is presented
to the refresh handler one minute after issuance. -/
theorem C13_tokens_interchangeable_witness :
    ((∃ c, auth.ValidateToken toy.primitives 519400000000000
            (auth.GenerateRefreshToken toy.primitives 1000000000000 7).1 = (some c, none)
          ∧ c.UserID = 7)
      ∧ handlers.AuthMiddleware toy.primitives 519400000000000
          ("Bearer " ++ (auth.GenerateRefreshToken toy.primitives 1000000000000 7).1)
          = .Next 7)
    ∧ (∃ accessToken refreshToken ca cr,
        toy.handler.RefreshToken toy.primitives 1060000000000 1060000000001 1060000000002
            ⟨(auth.GenerateAccessToken toy.primitives 1000000000000 7).1⟩ none
          = ⟨http.StatusOK, .Tokens
              { AccessToken := accessToken, RefreshToken := refreshToken,
                ExpiresIn := time.Unix (time.Add 1060000000001 (15 * time.Minute)) }⟩
        ∧ auth.ValidateToken toy.primitives 1060000000001 accessToken = (some ca, none)
        ∧ ca.UserID = 7
        ∧ auth.ValidateToken toy.primitives 1060000000002 refreshToken = (some cr, none)
        ∧ cr.UserID = 7) :=
  ⟨(C13_tokens_interchangeable toy.primitives_lawful 1000000000000 519400000000000
      1060000000001 1060000000002 7 toy.handler rfl ⟨toy.alice, by decide, by decide⟩).1
      (by decide),
   (C13_tokens_interchangeable toy.primitives_lawful 1000000000000 1060000000000
      1060000000001 1060000000002 7 toy.handler rfl ⟨toy.alice, by decide, by decide⟩).2
      (by decide)⟩

namespace go

theorem int32_of_range (n : Int) (hlo : -2147483648 ≤ n) (hhi : n < 2147483648) :
    int32 n = n := by
  unfold int32
  omega

end go

namespace toy

theorem signed_data (h : jwt.HMAC) (c : auth.Claims) :
    ∃ n rest, (auth.signed primitives h c).data = List.replicate n 'A' ++ '.' :: rest := by
  have key : ∀ a b d : String,
      (a ++ "." ++ b ++ "." ++ d).data = a.data ++ '.' :: (b.data ++ '.' :: d.data) := by
    intro a b d
    simp [String.data_append]
  have hk := key (encodeSegment (marshalHeader (auth.headerOf h)))
    (encodeSegment (marshalClaims c))
    (encodeSegment (mac h auth.secretKey
      (encodeSegment (marshalHeader (auth.headerOf h)) ++ "."
        ++ encodeSegment (marshalClaims c))))
  exact ⟨Encodable.encode (marshalHeader (auth.headerOf h)), _, hk⟩

theorem signed_ne_empty (h : jwt.HMAC) (c : auth.Claims) : auth.signed primitives h c ≠ "" := by
  obtain ⟨n, rest, hd⟩ := signed_data h c
  intro he
  rw [he] at hd
  have h2 := congrArg List.length hd
  simp at h2
  omega

theorem signed_not_HasPrefix (h : jwt.HMAC) (c : auth.Claims) :
    strings.HasPrefix (auth.signed primitives h c) "Bearer " = false := by
  obtain ⟨n, rest, hd⟩ := signed_data h c
  have hb : "Bearer ".toList = ['B', 'e', 'a', 'r', 'e', 'r', ' '] := rfl
  unfold strings.HasPrefix
  rw [hb]
  show List.isPrefixOf _ (auth.signed primitives h c).data = false
  rw [hd]
  cases n with
  | zero => simp [List.isPrefixOf]
  | succ k => simp [List.replicate_succ, List.isPrefixOf]

end toy

namespace auth

theorem ValidateToken_GenerateAccessToken {P : jwt.Primitives} (hP : P.Lawful) (now tv : Time)
    (uid : Int) (htv : tv < jwt.NumericDate.Time (accessExp now)) :
    ValidateToken P tv (GenerateAccessToken P now uid).1
      = (some (expClaims uid (accessExp now)), none) := by
  rw [GenerateAccessToken_eq]
  show ValidateToken P tv (signed P .HS256 _) = _
  rw [ValidateToken_signed_expClaims hP, if_pos htv]

end auth

namespace server

theorem GetUserID_of_valid (P : jwt.Primitives) (now : Time) (token : String) (c : auth.Claims)
    (hc : auth.ValidateToken P now token = (some c, none)) :
    AuthServer.GetUserID P now token = ({ UserId := go.int32 c.UserID, Error := "" }, none) := by
  simp [AuthServer.GetUserID, hc]

end server

/-- C14 as amended: for every token on which `ValidateToken` succeeds with claims `c`,
`AuthServer.GetUserID` answers with the user ID `int32(c.UserID)`, which is
`c.UserID` itself when that lies between -2147483648 and 2147483647, and with an
empty error field; for every token on which `ValidateToken` fails it answers with
the message of that failure and user ID 0; the call itself never returns an
error. -/
theorem C14_get_user_id (P : jwt.Primitives) (now : Time) (token : String) :
    (∀ c, auth.ValidateToken P now token = (some c, none) →
      server.AuthServer.GetUserID P now token
          = ({ UserId := go.int32 c.UserID, Error := "" }, none)
      ∧ (-2147483648 ≤ c.UserID → c.UserID < 2147483648 →
          (server.AuthServer.GetUserID P now token).1.UserId = c.UserID))
    ∧ (∀ e, (auth.ValidateToken P now token).2 = some e →
      server.AuthServer.GetUserID P now token = ({ UserId := 0, Error := e.Error }, none))
    ∧ (server.AuthServer.GetUserID P now token).2 = none := by
  refine ⟨?_, ?_, ?_⟩
  · intro c hc
    have hg : server.AuthServer.GetUserID P now token
        = ({ UserId := go.int32 c.UserID, Error := "" }, none) := by
      simp [server.AuthServer.GetUserID, hc]
    refine ⟨hg, ?_⟩
    intro hlo hhi
    rw [hg]
    exact go.int32_of_range c.UserID hlo hhi
  · intro e he
    rcases hr : auth.ValidateToken P now token with ⟨c, err⟩
    rw [hr] at he
    simp only at he
    subst he
    simp [server.AuthServer.GetUserID, hr]
  · rcases auth.ValidateToken_cases P now token with ⟨c, hc⟩ | ⟨e, he⟩
    · simp [server.AuthServer.GetUserID, hc]
    · simp [server.AuthServer.GetUserID, he]

/-- Witness for C14 as amended: an access token of user 7, the string `abc`, and an
access token validated after its expiration. -/
theorem C14_get_user_id_witness :
    server.AuthServer.GetUserID toy.primitives 1000000000000
        (auth.GenerateAccessToken toy.primitives 1000000000000 7).1
      = ({ UserId := 7, Error := "" }, none)
    ∧ server.AuthServer.GetUserID toy.primitives 1000000000000 "abc"
      = ({ UserId := 0,
           Error := "token is malformed: token contains an invalid number of segments" },
          none)
    ∧ server.AuthServer.GetUserID toy.primitives 1000000000000
        (auth.GenerateAccessToken toy.primitives 0 7).1
      = ({ UserId := 0, Error := "token has invalid claims: token is expired" }, none) :=
  ⟨((C14_get_user_id toy.primitives 1000000000000
        (auth.GenerateAccessToken toy.primitives 1000000000000 7).1).1
      (auth.expClaims 7 (auth.accessExp 1000000000000))
      (by
        rw [auth.GenerateAccessToken_eq]
        show auth.ValidateToken _ _ (auth.signed _ _ _) = _
        rw [auth.ValidateToken_signed_expClaims toy.primitives_lawful, if_pos (by decide)])).1,
   (C14_get_user_id toy.primitives 1000000000000 "abc").2.1
      (GoError.jwt (JwtErr.ErrTokenMalformed "token contains an invalid number of segments"))
      (by rw [auth.ValidateToken_wrong_segments _ _ _ (by decide)]),
   (C14_get_user_id toy.primitives 1000000000000
      (auth.GenerateAccessToken toy.primitives 0 7).1).2.1
      (GoError.jwt (JwtErr.ErrTokenInvalidClaims true false))
      (by
        rw [auth.GenerateAccessToken_eq]
        show (auth.ValidateToken _ _ (auth.signed _ _ _)).2 = _
        rw [auth.ValidateToken_signed_expClaims toy.primitives_lawful, if_neg (by decide)])⟩

/-- Counterexample to C14 as stated: `ValidateToken` accepts the access token of user
2147483648 with that user ID in the claims, and `GetUserID` answers with the user ID
-2147483648. -/
theorem C14_counterexample :
    auth.ValidateToken toy.primitives 1000000000000
        (auth.GenerateAccessToken toy.primitives 1000000000000 2147483648).1
      = (some (auth.expClaims 2147483648 (auth.accessExp 1000000000000)), none)
    ∧ (auth.expClaims 2147483648 (auth.accessExp 1000000000000)).UserID = 2147483648
    ∧ server.AuthServer.GetUserID toy.primitives 1000000000000
        (auth.GenerateAccessToken toy.primitives 1000000000000 2147483648).1
      = ({ UserId := -2147483648, Error := "" }, none) := by
  have hval := auth.ValidateToken_GenerateAccessToken toy.primitives_lawful 1000000000000
    1000000000000 2147483648 (auth.now_lt_accessExp 1000000000000)
  have h32 : go.int32 2147483648 = -2147483648 := by
    unfold go.int32
    norm_num
  refine ⟨hval, rfl, ?_⟩
  have hg := server.GetUserID_of_valid toy.primitives 1000000000000 _ _ hval
  rw [hg]
  show (({ UserId := go.int32 2147483648 } : server.UserIDResponse), (none : Option GoError)) = _
  rw [h32]

/-- C15: `AuthMiddleware` aborts the request with status 401, and the handler of the
protected route is not run, whenever the `Authorization` header is empty or
`ValidateToken` fails on the token extracted from it; whenever `ValidateToken`
succeeds on the extracted token with claims `c`, the middleware sets the context
value `userID` to `c.UserID` and the handler of the route runs with it. -/
theorem C15_middleware_outcomes (P : jwt.Primitives) (now : Time) (authHeader : String)
    (route : Int → handlers.Response) :
    ((authHeader = ""
        ∨ (auth.ValidateToken P now (strings.TrimPrefix authHeader "Bearer ")).2 ≠ none) →
      ∃ body, handlers.AuthMiddleware P now authHeader = .Abort http.StatusUnauthorized body
        ∧ handlers.Protected P now authHeader route = ⟨http.StatusUnauthorized, body⟩)
    ∧ (∀ c, auth.ValidateToken P now (strings.TrimPrefix authHeader "Bearer ") = (some c, none) →
      handlers.AuthMiddleware P now authHeader = .Next c.UserID
        ∧ handlers.Protected P now authHeader route = route c.UserID) := by
  constructor
  · intro h
    by_cases hne : authHeader = ""
    · refine ⟨.H [("error", "Отсутствие хедера")], ?_, ?_⟩ <;>
        simp [handlers.Protected, handlers.AuthMiddleware, hne]
    · have hv : (auth.ValidateToken P now (strings.TrimPrefix authHeader "Bearer ")).2 ≠ none :=
        h.resolve_left hne
      have hm := handlers.AuthMiddleware_of_invalid P now authHeader hne hv
      exact ⟨_, hm, by simp [handlers.Protected, hm]⟩
  · intro c hc
    have hne : authHeader ≠ "" := by
      intro he
      subst he
      have ht : strings.TrimPrefix "" "Bearer " = "" := by decide
      rw [ht, auth.ValidateToken_empty] at hc
      simp at hc
    have hm := handlers.AuthMiddleware_of_valid P now authHeader c hne hc
    exact ⟨hm, by simp [handlers.Protected, hm]⟩

/-- Witness for C15: a request without the header, a request with the header
`Bearer abc`, and a request with a bearer access token of user 7. -/
theorem C15_middleware_outcomes_witness :
    (∃ body, handlers.AuthMiddleware toy.primitives 0 "" = .Abort http.StatusUnauthorized body
        ∧ handlers.Protected toy.primitives 0 "" (fun _ => ⟨http.StatusOK, .H []⟩)
            = ⟨http.StatusUnauthorized, body⟩)
    ∧ (∃ body, handlers.AuthMiddleware toy.primitives 0 "Bearer abc"
          = .Abort http.StatusUnauthorized body
        ∧ handlers.Protected toy.primitives 0 "Bearer abc" (fun _ => ⟨http.StatusOK, .H []⟩)
            = ⟨http.StatusUnauthorized, body⟩)
    ∧ (handlers.AuthMiddleware toy.primitives 1000000000000
          ("Bearer " ++ (auth.GenerateAccessToken toy.primitives 1000000000000 7).1) = .Next 7
        ∧ handlers.Protected toy.primitives 1000000000000
            ("Bearer " ++ (auth.GenerateAccessToken toy.primitives 1000000000000 7).1)
            (fun uid => ⟨http.StatusOK, .Tokens { UserID := uid }⟩)
          = ⟨http.StatusOK, .Tokens { UserID := 7 }⟩) :=
  ⟨(C15_middleware_outcomes toy.primitives 0 "" _).1 (Or.inl rfl),
   (C15_middleware_outcomes toy.primitives 0 "Bearer abc" _).1
      (Or.inr (by
        have ht : strings.TrimPrefix "Bearer abc" "Bearer " = "abc" := by decide
        rw [ht, auth.ValidateToken_wrong_segments _ _ _ (by decide)]
        simp)),
   (C15_middleware_outcomes toy.primitives 1000000000000
      ("Bearer " ++ (auth.GenerateAccessToken toy.primitives 1000000000000 7).1) _).2
      (auth.expClaims 7 (auth.accessExp 1000000000000))
      (by
        rw [strings.TrimPrefix_append, auth.GenerateAccessToken_eq]
        show auth.ValidateToken _ _ (auth.signed _ _ _) = _
        rw [auth.ValidateToken_signed_expClaims toy.primitives_lawful, if_pos (by decide)])⟩

/-- C19: for every non-empty `Authorization` header value `h` that does not begin with
`Bearer `, the token that `AuthMiddleware` validates is `h` itself: it aborts with
status 401 when `ValidateToken` fails on `h` and continues with `userID = c.UserID`
when `ValidateToken` succeeds on `h` with claims `c`, so a bare valid token is
authorized; and the header `Bearer ` followed by `h` has the same outcome as the
header `h`. -/
theorem C19_bare_token_accepted (P : jwt.Primitives) (now : Time) (h : String)
    (hne : h ≠ "") (hpre : strings.HasPrefix h "Bearer " = false) :
    strings.TrimPrefix h "Bearer " = h
    ∧ ((auth.ValidateToken P now h).2 ≠ none →
        handlers.AuthMiddleware P now h
          = .Abort http.StatusUnauthorized (.H [("error", "Невалидный токен")]))
    ∧ (∀ c, auth.ValidateToken P now h = (some c, none) →
        handlers.AuthMiddleware P now h = .Next c.UserID)
    ∧ handlers.AuthMiddleware P now ("Bearer " ++ h) = handlers.AuthMiddleware P now h := by
  have ht := strings.TrimPrefix_of_not_HasPrefix h "Bearer " hpre
  refine ⟨ht, ?_, ?_, ?_⟩
  · intro hv
    exact handlers.AuthMiddleware_of_invalid P now h hne (by rw [ht]; exact hv)
  · intro c hc
    exact handlers.AuthMiddleware_of_valid P now h c hne (by rw [ht]; exact hc)
  · unfold handlers.AuthMiddleware
    simp only [hne, handlers.Bearer_append_ne_empty, if_false, strings.TrimPrefix_append, ht]

/-- Witness for C19: the access token of user 7 sent bare, without the scheme, is
authorized, as it is behind `Bearer `. -/
theorem C19_bare_token_accepted_witness :
    handlers.AuthMiddleware toy.primitives 1000000000000
        (auth.GenerateAccessToken toy.primitives 1000000000000 7).1 = .Next 7
    ∧ handlers.AuthMiddleware toy.primitives 1000000000000
        ("Bearer " ++ (auth.GenerateAccessToken toy.primitives 1000000000000 7).1)
      = handlers.AuthMiddleware toy.primitives 1000000000000
        (auth.GenerateAccessToken toy.primitives 1000000000000 7).1 :=
  ⟨(C19_bare_token_accepted toy.primitives 1000000000000
      (auth.GenerateAccessToken toy.primitives 1000000000000 7).1
      (by rw [auth.GenerateAccessToken_eq]; exact toy.signed_ne_empty _ _)
      (by rw [auth.GenerateAccessToken_eq]; exact toy.signed_not_HasPrefix _ _)).2.2.1
      (auth.expClaims 7 (auth.accessExp 1000000000000))
      (by
        rw [auth.GenerateAccessToken_eq]
        show auth.ValidateToken _ _ (auth.signed _ _ _) = _
        rw [auth.ValidateToken_signed_expClaims toy.primitives_lawful, if_pos (by decide)]),
   (C19_bare_token_accepted toy.primitives 1000000000000
      (auth.GenerateAccessToken toy.primitives 1000000000000 7).1
      (by rw [auth.GenerateAccessToken_eq]; exact toy.signed_ne_empty _ _)
      (by rw [auth.GenerateAccessToken_eq]; exact toy.signed_not_HasPrefix _ _)).2.2.2⟩

/-! ## Claims on the repository -/

namespace sql

theorem ExecDelete_rows_nonneg (db : DB) (id : Int) (n : Int)
    (h : (db.ExecDelete id).2.1.RowsAffected = (n, none)) : 0 ≤ n := by
  unfold DB.ExecDelete at h
  cases hf : db.fault with
  | some msg =>
    simp only [hf, Prod.mk.injEq, and_true] at h
    omega
  | none =>
    simp only [hf] at h
    cases hr : db.rowsFault with
    | some msg => simp [hr] at h
    | none =>
      simp only [hr, Prod.mk.injEq, and_true] at h
      rw [← h]
      exact Int.ofNat_nonneg _

end sql

/-- C16: for every id, `userRepository.Delete(id)` returns nil exactly when the delete
statement succeeds and reports at least one affected row; it returns
`models.ErrorUserNotFound` when the statement succeeds with zero affected rows; and
when the statement fails with a store error it returns that error wrapped behind
the message `ошибка при удалении пользователя: `. -/
theorem C16_delete_results (r : repository.userRepository) (id : Int) :
    ((r.Delete id).2 = none ↔
      ((r.db.ExecDelete id).2.2 = none
        ∧ ∃ n, (r.db.ExecDelete id).2.1.RowsAffected = (n, none) ∧ 1 ≤ n))
    ∧ ((r.db.ExecDelete id).2.2 = none → (r.db.ExecDelete id).2.1.RowsAffected = (0, none) →
        (r.Delete id).2 = some GoError.ErrorUserNotFound)
    ∧ (∀ e, (r.db.ExecDelete id).2.2 = some e →
        (r.Delete id).2 = some (GoError.wrapped "ошибка при удалении пользователя: " e)
        ∧ (GoError.wrapped "ошибка при удалении пользователя: " e).Error
            = "ошибка при удалении пользователя: " ++ e.Error) := by
  have hnn := sql.ExecDelete_rows_nonneg r.db id
  unfold repository.userRepository.Delete
  rcases hq : r.db.ExecDelete id with ⟨db, result, err⟩
  rw [hq] at hnn
  cases err with
  | some e => simp [GoError.Error]
  | none =>
    rcases hr : result.RowsAffected with ⟨n, rerr⟩
    rw [hr] at hnn
    cases rerr with
    | some e => simp [hr]
    | none =>
      have h0 : 0 ≤ n := hnn n rfl
      by_cases hz : n = 0
      · subst hz
        simp [hr]
      · have h1 : 1 ≤ n := by omega
        simp [hr, hz, h1]

/-- Witness for C16: deleting the stored user 7, deleting the unknown user 999, and
deleting on a database that fails. -/
theorem C16_delete_results_witness :
    (repository.userRepository.Delete ⟨toy.db⟩ 7).2 = none
    ∧ (repository.userRepository.Delete ⟨toy.db⟩ 999).2 = some GoError.ErrorUserNotFound
    ∧ (repository.userRepository.Delete ⟨toy.brokenDB⟩ 1).2
        = some (GoError.wrapped "ошибка при удалении пользователя: " (GoError.driver "db error"))
    ∧ (GoError.wrapped "ошибка при удалении пользователя: " (GoError.driver "db error")).Error
        = "ошибка при удалении пользователя: " ++ (GoError.driver "db error").Error :=
  ⟨(C16_delete_results ⟨toy.db⟩ 7).1.mpr ⟨by decide, 1, by decide, by decide⟩,
   (C16_delete_results ⟨toy.db⟩ 999).2.1 (by decide) (by decide),
   ((C16_delete_results ⟨toy.brokenDB⟩ 1).2.2 (GoError.driver "db error") (by decide)).1,
   ((C16_delete_results ⟨toy.brokenDB⟩ 1).2.2 (GoError.driver "db error") (by decide)).2⟩

namespace toy

theorem IsHash_head (hashed : String) (h : bcrypt.IsHash bcryptPrimitives hashed) :
    hashed.data.head? = some '$' := by
  obtain ⟨salt, password, cost, hg⟩ := h
  simp only [bcryptPrimitives] at hg
  split at hg
  · simp at hg
  · simp only [Prod.mk.injEq, and_true] at hg
    rw [← hg]
    simp

theorem correctpass_not_IsHash : ¬ bcrypt.IsHash bcryptPrimitives "correctpass" := by
  intro h
  have := IsHash_head _ h
  simp at this

end toy

/-- C17: for every id and password, `userRepository.CheckPassword(id, password)` returns
true if and only if `GetByID(id)` finds a user and the password compares equal with
the stored credential of that user; it returns false when the user is not found or
the lookup fails, and when the stored credential is not a hash. -/
theorem C17_check_password_iff {B : bcrypt.Primitives} (hB : B.Lawful)
    (r : repository.userRepository) (id : Int) (password : String) :
    (r.CheckPassword B id password = true ↔
      ∃ u, r.GetByID id = (u, none) ∧ B.CompareHashAndPassword u.Password password = none)
    ∧ ((r.GetByID id).2 ≠ none → r.CheckPassword B id password = false)
    ∧ (∀ u, r.GetByID id = (u, none) → ¬ bcrypt.IsHash B u.Password →
        r.CheckPassword B id password = false) := by
  unfold repository.userRepository.CheckPassword
  rcases hg : r.GetByID id with ⟨user, err⟩
  cases err with
  | some e => simp
  | none =>
    refine ⟨?_, by simp, ?_⟩
    · simp [models.User.VerifyPassword, Option.isNone_iff_eq_none]
    · intro u hu hnot
      simp only [Prod.mk.injEq, and_true] at hu
      subst hu
      cases hc : B.CompareHashAndPassword user.Password password with
      | none => exact absurd (hB.compare_is_hash _ _ hc) hnot
      | some e => simp [models.User.VerifyPassword, hc]

/-- Witness for C17: the right password of the stored user 7, the unknown user 999, a
database that fails, and a stored credential that is not a hash. -/
theorem C17_check_password_iff_witness :
    repository.userRepository.CheckPassword toy.bcryptPrimitives ⟨toy.db⟩ 7 "secret1" = true
    ∧ repository.userRepository.CheckPassword toy.bcryptPrimitives ⟨toy.db⟩ 999 "anypass"
        = false
    ∧ repository.userRepository.CheckPassword toy.bcryptPrimitives ⟨toy.brokenDB⟩ 7 "secret1"
        = false
    ∧ repository.userRepository.CheckPassword toy.bcryptPrimitives ⟨toy.legacyDB⟩ 1 "wrongpass"
        = false :=
  ⟨(C17_check_password_iff toy.bcryptPrimitives_lawful ⟨toy.db⟩ 7 "secret1").1.mpr
      ⟨toy.alice, by decide, by decide⟩,
   (C17_check_password_iff toy.bcryptPrimitives_lawful ⟨toy.db⟩ 999 "anypass").2.1 (by decide),
   (C17_check_password_iff toy.bcryptPrimitives_lawful ⟨toy.brokenDB⟩ 7 "secret1").2.1
      (by decide),
   (C17_check_password_iff toy.bcryptPrimitives_lawful ⟨toy.legacyDB⟩ 1 "wrongpass").2.2
      { ID := 1, Name := "test", Email := "test@test.com", Password := "correctpass",
        Role := "user" } (by decide) toy.correctpass_not_IsHash⟩

/-- C18: when the store returns no row for the id (`sql.ErrNoRows`), `GetByID(id)` and
`Update(id, user)` both return the zero-valued user together with
`models.ErrorUserNotFound`; on any other store error they return the zero-valued
user and that error wrapped (for `GetByID` behind the message
`ошибка при получении пользователя по ID: `), never `ErrorUserNotFound`. -/
theorem C18_not_found_and_store_errors (B : bcrypt.Primitives) (salt : Bytes)
    (r : repository.userRepository) (id : Int) (user : models.User) :
    (∀ e, (r.db.QueryRowByID id).2 = some e →
      (GoError.Is e GoError.ErrNoRows = true →
        r.GetByID id = ({}, some GoError.ErrorUserNotFound))
      ∧ (GoError.Is e GoError.ErrNoRows = false →
        r.GetByID id
            = ({}, some (GoError.wrapped "ошибка при получении пользователя по ID: " e))
          ∧ (r.GetByID id).2 ≠ some GoError.ErrorUserNotFound))
    ∧ (∀ e, (r.db.QueryRowUpdate user.Name user.Email user.Password id).2.2 = some e →
      (GoError.Is e GoError.ErrNoRows = true →
        (r.Update B salt id user).2 = ({}, some GoError.ErrorUserNotFound))
      ∧ (GoError.Is e GoError.ErrNoRows = false →
        (r.Update B salt id user).2
            = ({}, some (GoError.wrapped "ошибка при обновлении пользователя: " e))
          ∧ (r.Update B salt id user).2.2 ≠ some GoError.ErrorUserNotFound)) := by
  constructor
  · intro e he
    unfold repository.userRepository.GetByID
    rcases hq : r.db.QueryRowByID id with ⟨u, err⟩
    rw [hq] at he
    simp only at he
    subst he
    constructor
    · intro his
      simp [his]
    · intro his
      simp [his]
  · intro e he
    unfold repository.userRepository.Update
    rcases hq : r.db.QueryRowUpdate user.Name user.Email user.Password id with ⟨db, u, err⟩
    rw [hq] at he
    simp only at he
    subst he
    constructor
    · intro his
      simp [his]
    · intro his
      simp [his]

/-- Witness for C18: the unknown user 999 on the database with one user, and user 1 on
a database that fails. -/
theorem C18_not_found_and_store_errors_witness :
    repository.userRepository.GetByID ⟨toy.db⟩ 999 = ({}, some GoError.ErrorUserNotFound)
    ∧ (repository.userRepository.Update toy.bcryptPrimitives [] ⟨toy.db⟩ 999
          { Name := "UpdatedUser", Email := "updated@test.com", Password := "updatedpass" }).2
        = ({}, some GoError.ErrorUserNotFound)
    ∧ repository.userRepository.GetByID ⟨toy.brokenDB⟩ 1
        = ({}, some (GoError.wrapped "ошибка при получении пользователя по ID: "
            (GoError.driver "db error")))
    ∧ (repository.userRepository.Update toy.bcryptPrimitives [] ⟨toy.brokenDB⟩ 1
          { Name := "UpdatedUser", Email := "updated@test.com", Password := "updatedpass" }).2
        = ({}, some (GoError.wrapped "ошибка при обновлении пользователя: "
            (GoError.driver "db error"))) :=
  ⟨((C18_not_found_and_store_errors toy.bcryptPrimitives [] ⟨toy.db⟩ 999
        { Name := "UpdatedUser", Email := "updated@test.com", Password := "updatedpass" }).1
      GoError.ErrNoRows (by decide)).1 (by decide),
   ((C18_not_found_and_store_errors toy.bcryptPrimitives [] ⟨toy.db⟩ 999
        { Name := "UpdatedUser", Email := "updated@test.com", Password := "updatedpass" }).2
      GoError.ErrNoRows (by decide)).1 (by decide),
   (((C18_not_found_and_store_errors toy.bcryptPrimitives [] ⟨toy.brokenDB⟩ 1
        { Name := "UpdatedUser", Email := "updated@test.com", Password := "updatedpass" }).1
      (GoError.driver "db error") (by decide)).2 (by decide)).1,
   (((C18_not_found_and_store_errors toy.bcryptPrimitives [] ⟨toy.brokenDB⟩ 1
        { Name := "UpdatedUser", Email := "updated@test.com", Password := "updatedpass" }).2
      (GoError.driver "db error") (by decide)).2 (by decide)).1⟩
